import Mathlib

/-!
# Verification of the Axis Growth credit-audit core

Shallow embedding of the record-extraction helpers and of the redundant
copies of the discrepancy-detection engine found in this repository:

* `src/app/api/audit/route.js`  (referred to below as the "route" copy)
* `src/unnamed/part_000`        (the "p000" copy)
* `src/unnamed/part_001`        (the "p001" copy, duplicated twice in that file)
* `src/unnamed/part_004`        (the "p004" copy, the CLI pipeline)

Modelling conventions:
* JS strings are Lean `String`s (ASCII assumed for case conversion — every
  string literal occurring in the sources is ASCII);
* JS `null` / an absent numeric field is `Option Int` with `none`;
* `new Date(s1) - new Date(s2)` over the normalized `YYYY-MM-DD` strings the
  pipeline feeds to the engine is modelled by an exact civil-calendar day
  difference; a string that is not a valid `YYYY-MM-DD` date yields `none`,
  matching the JS behaviour in every copy (`NaN` is falsy, `NaN > 30` is
  false, or an explicit `isNaN` guard returns `null`), so no finding fires;
* the wall clock read by the p004 inquiry rule (`new Date()`) is passed as an
  explicit `today` day-number parameter.
-/

/-! ## Basic string helpers -/

/-- `true` for the characters kept by the JS `replace(/[^A-Z0-9]/g, '')`. -/
def isUpperAlnum (c : Char) : Bool :=
  ('A' ≤ c && c ≤ 'Z') || ('0' ≤ c && c ≤ '9')

/-- `name.toUpperCase().replace(/[^A-Z0-9]/g, '').substring(0, cap)`.
The route/p001/p004 copies call this with `cap = 10`, the p000 copy with
`cap = 12`. -/
def normalizeCreditor (cap : Nat) (name : String) : String :=
  (((name.data.map Char.toUpper).filter isUpperAlnum).take cap).asString

/-- JS `s.slice(-4)`: the last four characters (the whole string if shorter). -/
def sliceLast4 (s : String) : String :=
  (s.data.drop (s.data.length - 4)).asString

/-- `s.toLowerCase().replace(/[^a-z]/g, '')` used to normalize statuses. -/
def normalizeStatus (s : String) : String :=
  ((s.data.map Char.toLower).filter (fun c => 'a' ≤ c && c ≤ 'z')).asString

/-- `needle` occurs contiguously inside `hay`. -/
def charsInfixOf (needle : List Char) : List Char → Bool
  | [] => needle.isEmpty
  | c :: cs => needle.isPrefixOf (c :: cs) || charsInfixOf needle cs

/-- Case-insensitive substring test, modelling `str.match(/FRAG/i)`. -/
def containsCI (s frag : String) : Bool :=
  charsInfixOf (frag.data.map Char.toUpper) (s.data.map Char.toUpper)

/-- `str.match(/F1|F2|.../i)`: some alternative occurs, case-insensitively. -/
def containsAnyCI (s : String) (frags : List String) : Bool :=
  frags.any (containsCI s)

/-- The JS array-dedup idiom `a.filter((v,i) => a.indexOf(v) === i)`:
keep the first occurrence of every value, in order. -/
def uniqueFirst : List String → List String
  | [] => []
  | x :: xs => x :: uniqueFirst (xs.filter (fun y => y ≠ x))
termination_by l => l.length
decreasing_by
  simp only [List.length_cons]
  exact Nat.lt_succ_of_le (List.length_filter_le _ _)

/-- Same dedup idiom at `Int` (used for credit-limit values). -/
def uniqueFirstInt : List Int → List Int
  | [] => []
  | x :: xs => x :: uniqueFirstInt (xs.filter (fun y => y ≠ x))
termination_by l => l.length
decreasing_by
  simp only [List.length_cons]
  exact Nat.lt_succ_of_le (List.length_filter_le _ _)

/-! ## Calendar dates

`new Date("YYYY-MM-DD")` parses as a UTC civil date and subtraction divided by
86 400 000 ms gives the exact day difference.  We map a civil date to a day
number with the standard days-from-civil-epoch formula (all quantities are
non-negative for the 4-digit years produced by `parseDate`). -/

def isLeapYear (y : Int) : Bool :=
  (y % 4 == 0 && y % 100 != 0) || (y % 400 == 0)

def daysInMonth (y m : Int) : Int :=
  if m = 2 then (if isLeapYear y then 29 else 28)
  else if m = 4 ∨ m = 6 ∨ m = 9 ∨ m = 11 then 30
  else 31

/-- Days since 1970-01-01 of the civil date `y-m-d`. -/
def daysFromCivil (y m d : Int) : Int :=
  let y' := if m ≤ 2 then y - 1 else y
  let era : Int := (if 0 ≤ y' then y' else y' - 399) / 400
  let yoe : Int := y' - era * 400
  let mp : Int := (m + 9) % 12
  let doy : Int := (153 * mp + 2) / 5 + d - 1
  let doe : Int := yoe * 365 + yoe / 4 - yoe / 100 + doy
  era * 146097 + doe - 719468

/-- Parse a strict `YYYY-MM-DD` string to its civil day number.  Returns
`none` for anything else (a malformed string makes `new Date` produce
`Invalid Date`/`NaN` in JS, and in every engine copy a `NaN` difference
fires no rule; see the header comment). -/
def parseISODate (s : String) : Option Int :=
  match s.data with
  | [y1, y2, y3, y4, '-', m1, m2, '-', d1, d2] =>
    if y1.isDigit && y2.isDigit && y3.isDigit && y4.isDigit &&
       m1.isDigit && m2.isDigit && d1.isDigit && d2.isDigit then
      let y : Int := ((y1.toNat - 48) * 1000 + (y2.toNat - 48) * 100 +
                      (y3.toNat - 48) * 10 + (y4.toNat - 48) : Nat)
      let m : Int := ((m1.toNat - 48) * 10 + (m2.toNat - 48) : Nat)
      let d : Int := ((d1.toNat - 48) * 10 + (d2.toNat - 48) : Nat)
      if 1 ≤ m ∧ m ≤ 12 ∧ 1 ≤ d ∧ d ≤ daysInMonth y m then
        some (daysFromCivil y m d)
      else none
    else none
  | _ => none

/-- `daysDiff(d1, d2)` of the engines: `null` when either argument is empty,
otherwise `Math.abs((new Date(d1) - new Date(d2)) / 86400000)`;
an unparseable date yields a result on which no rule fires, modelled `none`. -/
def daysDiff (d1 d2 : String) : Option Int :=
  if d1 = "" ∨ d2 = "" then none
  else match parseISODate d1, parseISODate d2 with
    | some a, some b => some (a - b).natAbs
    | _, _ => none

/-! ## `parseDate`: the `M/D/YYYY` / `M/YYYY` normalizer

The JS source searches with the unanchored regexes
`(\d{1,2})\/(\d{1,2})\/(\d{4})` and `(\d{1,2})\/(\d{4})`.  We model the
backtracking search exactly: at each start position the quantifier
`\d{1,2}` tries two digits first, then one. -/

/-- Take exactly `n` digit characters. -/
def takeDigits : Nat → List Char → Option (List Char × List Char)
  | 0, cs => some ([], cs)
  | _ + 1, [] => none
  | n + 1, c :: cs =>
    if c.isDigit then (takeDigits n cs).map (fun p => (c :: p.1, p.2)) else none

/-- Consume a literal `/`. -/
def expectSlash : List Char → Option (List Char)
  | '/' :: r => some r
  | _ => none

/-- One backtracking alternative of `(\d{1,2})\/(\d{1,2})\/(\d{4})` with the
two quantifiers taking `n1` and `n2` digits. -/
def tryMDY (n1 n2 : Nat) (cs : List Char) : Option (List Char × List Char × List Char) := do
  let p1 ← takeDigits n1 cs
  let r1 ← expectSlash p1.2
  let p2 ← takeDigits n2 r1
  let r2 ← expectSlash p2.2
  let p3 ← takeDigits 4 r2
  pure (p1.1, p2.1, p3.1)

/-- Match `(\d{1,2})\/(\d{1,2})\/(\d{4})` at the start of `cs`, in the
greedy backtracking order of the JS engine. -/
def matchMDYAt (cs : List Char) : Option (List Char × List Char × List Char) :=
  tryMDY 2 2 cs <|> tryMDY 2 1 cs <|> tryMDY 1 2 cs <|> tryMDY 1 1 cs

/-- Leftmost match of the `M/D/YYYY` regex in the string. -/
def findMDY : List Char → Option (List Char × List Char × List Char)
  | [] => none
  | c :: cs => matchMDYAt (c :: cs) <|> findMDY cs

/-- One backtracking alternative of `(\d{1,2})\/(\d{4})`. -/
def tryMY (n1 : Nat) (cs : List Char) : Option (List Char × List Char) := do
  let p1 ← takeDigits n1 cs
  let r1 ← expectSlash p1.2
  let p2 ← takeDigits 4 r1
  pure (p1.1, p2.1)

/-- Match `(\d{1,2})\/(\d{4})` at the start of `cs`. -/
def matchMYAt (cs : List Char) : Option (List Char × List Char) :=
  tryMY 2 cs <|> tryMY 1 cs

/-- Leftmost match of the `M/YYYY` regex in the string. -/
def findMY : List Char → Option (List Char × List Char)
  | [] => none
  | c :: cs => matchMYAt (c :: cs) <|> findMY cs

/-- JS `str.padStart(2, '0')` for a capture of one or two digits. -/
def padTwo (cs : List Char) : String :=
  if cs.length ≥ 2 then cs.asString else "0" ++ cs.asString

/-- `parseDate` as written in `route.js` (lines 218–229) and in the p001 and
p004 copies: `M/D/YYYY` → `YYYY-MM-DD`, else `M/YYYY` → `YYYY-MM-01`,
else the empty string. -/
def parseDate (dateStr : String) : String :=
  if dateStr = "" then ""
  else match findMDY dateStr.data with
    | some (m, d, y) => y.asString ++ "-" ++ padTwo m ++ "-" ++ padTwo d
    | none =>
      match findMY dateStr.data with
      | some (m, y) => y.asString ++ "-" ++ padTwo m ++ "-01"
      | none => ""

/-- `parseDate` as written in the p000 copy (lines 251–262): identical except
that the final fallback returns the input string unchanged instead of `''`. -/
def parseDate_p000 (dateStr : String) : String :=
  if dateStr = "" then ""
  else match findMDY dateStr.data with
    | some (m, d, y) => y.asString ++ "-" ++ padTwo m ++ "-" ++ padTwo d
    | none =>
      match findMY dateStr.data with
      | some (m, y) => y.asString ++ "-" ++ padTwo m ++ "-01"
      | none => dateStr

/-! ## Amount parsing (`parseAmount` in p000, `parseNumber` in p001/p004) -/

/-- `amtStr.replace(/[$,\s]/g, '')`. -/
def stripAmount (s : String) : String :=
  (s.data.filter (fun c => !(c = '$' || c = ',' || c.isWhitespace))).asString

/-- Numeric value of a digit run. -/
def digitsVal (l : List Char) : Nat :=
  l.foldl (fun a c => a * 10 + (c.toNat - 48)) 0

/-- The leading digit run of `l`, `none` when `l` does not start with a digit. -/
def leadingDigits (l : List Char) : Option Nat :=
  match l.takeWhile Char.isDigit with
  | [] => none
  | ds => some (digitsVal ds)

/-- `parseInt(s, 10)` on a whitespace-free string: an optional sign followed by
a digit run (trailing junk ignored); `none` models `NaN`.  (JS loses precision
above 2^53; no claim depends on such magnitudes.) -/
def parseIntJS (s : String) : Option Int :=
  match s.data with
  | [] => none
  | c :: rest =>
    if c = '-' then (leadingDigits rest).map (fun n => -(n : Int))
    else if c = '+' then (leadingDigits rest).map (fun n => (n : Int))
    else (leadingDigits (c :: rest)).map (fun n => (n : Int))

/-- `parseAmount` of the p000 copy (lines 264–269). -/
def parseAmount (amtStr : String) : Option Int :=
  if amtStr = "" then none
  else parseIntJS (stripAmount amtStr)

/-- `parseNumber` of the p001/p004 copies — the same computation. -/
def parseNumber (numStr : String) : Option Int :=
  if numStr = "" then none
  else parseIntJS (stripAmount numStr)

example : parseAmount "$1,234" = some 1234 := by decide
example : parseAmount "--" = none := by decide
example : parseAmount "" = none := by decide
example : parseDate "1/2/2020" = "2020-01-02" := by decide
example : parseDate "11/2020" = "2020-11-01" := by decide
example : parseDate "abc" = "" := by decide
example : parseDate_p000 "abc" = "abc" := by decide
example : daysDiff "2020-01-01" "2020-02-01" = some 31 := by decide
example : daysDiff "2020-01-01" "2020-01-31" = some 30 := by decide
example : daysDiff "2020-01-01" "2020-03-15" = some 74 := by decide

/-! ## Data model -/

/-- One `(logical account × bureau)` row, as assembled by the extractors.
JS omits the collection-only fields on tradelines; they are modelled with
empty/false defaults (no engine reads them on a tradeline). -/
structure AccountRecord where
  id : String := ""
  creditorName : String := ""
  accountNumberPartial : String := ""
  bureau : String := ""
  status : String := ""
  openDate : String := ""
  dateOfFirstDelinquency : String := ""
  dateOfLastActivity : String := ""
  lastPaymentDate : String := ""
  creditLimit : Option Int := none
  currentBalance : Option Int := none
  isCollection : Bool := false
  collectorName : String := ""
  originalCreditor : String := ""
  isMedical : Bool := false
deriving Repr, DecidableEq, Inhabited

/-- A hard/soft inquiry row (produced by `parseInquiries` in p004). -/
structure InquiryRecord where
  id : String := ""
  creditorName : String := ""
  inquiryDate : String := ""
  bureau : String := ""
  inquiryType : String := ""
deriving Repr, DecidableEq, Inhabited

/-- A detection finding.  The last four fields are `Option` because the JS
copies differ in whether the corresponding object property is present at all
(the p000 copy omits `claimIndicator`, `documentationNeeded` and
`dependencies`; only the p001/p004 collection findings carry
`cannotConfirm`); `none` models an absent property. -/
structure Finding where
  id : Nat := 0
  type : String := ""
  item : String := ""
  bureausAffected : List String := []
  severity : String := ""
  basis : String := ""
  evidence : String := ""
  action : String := ""
  impactScore : Nat := 0
  timeline : String := ""
  claimIndicator : Option Bool := none
  cannotConfirm : Option String := none
  documentationNeeded : Option (List String) := none
  dependencies : Option (List String) := none
deriving Repr, DecidableEq, Inhabited

/-! ## Engine helpers shared by the copies -/

/-- The grouping key `normalizeCreditor(t.creditorName) + '_' +
(t.accountNumberPartial || '').slice(-4)`. -/
def groupKey (cap : Nat) (t : AccountRecord) : String :=
  normalizeCreditor cap t.creditorName ++ "_" ++ sliceLast4 t.accountNumberPartial

/-- `if (!groups[key]) groups[key] = []; groups[key].push(t)`. -/
def addToGroups (gs : List (String × List AccountRecord)) (k : String)
    (t : AccountRecord) : List (String × List AccountRecord) :=
  if gs.any (fun g => g.1 = k) then
    gs.map (fun g => if g.1 = k then (g.1, g.2 ++ [t]) else g)
  else gs ++ [(k, [t])]

/-- Group the tradelines by key.  A JS object whose keys all contain `'_'`
enumerates them in first-insertion order, which the association list
reproduces. -/
def groupTradelines (cap : Nat) (ts : List AccountRecord) :
    List (String × List AccountRecord) :=
  ts.foldl (fun gs t => addToGroups gs (groupKey cap t) t) []

/-- `items[0].creditorName + ' (...' + last4 + ')'`. -/
def itemNameOf (items : List AccountRecord) : String :=
  items.headI.creditorName ++ " (..." ++ sliceLast4 items.headI.accountNumberPartial ++ ")"

/-- The per-group value collections (`openDates`, `dlaValues`, `statuses`,
`limits` arrays): one entry per record whose field is non-empty/non-null,
in record order. -/
def openDatesOf (items : List AccountRecord) : List (String × String) :=
  items.filterMap (fun i => if i.openDate ≠ "" then some (i.bureau, i.openDate) else none)

def dlaValuesOf (items : List AccountRecord) : List (String × String) :=
  items.filterMap (fun i =>
    if i.dateOfLastActivity ≠ "" then some (i.bureau, i.dateOfLastActivity) else none)

def payDatesOf (items : List AccountRecord) : List (String × String) :=
  items.filterMap (fun i =>
    if i.lastPaymentDate ≠ "" then some (i.bureau, i.lastPaymentDate) else none)

def statusesOf (items : List AccountRecord) : List (String × String) :=
  items.filterMap (fun i => if i.status ≠ "" then some (i.bureau, i.status) else none)

def limitsOf (items : List AccountRecord) : List (String × Int) :=
  items.filterMap (fun i => i.creditLimit.map (fun v => (i.bureau, v)))

/-- Inner pair loop `for (b = a+1; ...) { if (diff && diff > 30) { push; break } }`:
the first partner of `x` (in order) at distance `> 30` days. -/
def firstFarPair (x : String × String) :
    List (String × String) → Option ((String × String) × (String × String) × Int)
  | [] => none
  | y :: rest =>
    match daysDiff x.2 y.2 with
    | some d => if 30 < d then some (x, y, d) else firstFarPair x rest
    | none => firstFarPair x rest

/-- The route/p001/p004 date-mismatch scan: the `break` leaves only the inner
loop, so every outer index contributes its first qualifying partner. -/
def datePairScan : List (String × String) →
    List ((String × String) × (String × String) × Int)
  | [] => []
  | x :: rest =>
    match firstFarPair x rest with
    | some p => p :: datePairScan rest
    | none => datePairScan rest

/-- The p000 date-mismatch scan.  After each outer iteration p000 additionally
checks `findings[last].item === itemName && findings[last].type === T` and
breaks the outer loop.  Equal `item` strings force equal group keys (both are
determined by `(items[0].creditorName, last4)`), so the check is true exactly
when this group's rule just pushed a finding: the scan stops at the first
qualifying pair overall. -/
def datePairScanFirstOnly : List (String × String) →
    Option ((String × String) × (String × String) × Int)
  | [] => none
  | x :: rest =>
    match firstFarPair x rest with
    | some p => some p
    | none => datePairScanFirstOnly rest

/-- `new Set(l).size` (p001/p004 status rule). -/
def setSizeJS (l : List String) : Nat := (uniqueFirst l).length

/-- p001/p004 `limits.some((l,i) => limits.some((l2,j) => i !== j && l.limit !== l2.limit))`.
The `i !== j` conjunct is redundant: differing values can only sit at
differing indexes. -/
def hasMismatchJS (limits : List (String × Int)) : Bool :=
  limits.any (fun a => limits.any (fun b => a.2 ≠ b.2))

/-- `findingId` starts at 1 and increments once per pushed finding, i.e. the
`n`-th finding of the run gets id `n`. -/
def assignIdsFrom (n : Nat) : List Finding → List Finding
  | [] => []
  | f :: fs => { f with id := n } :: assignIdsFrom (n + 1) fs

def assignIds (fs : List Finding) : List Finding := assignIdsFrom 1 fs

/-- `c.collectorName || c.creditorName`. -/
def collectorDisplay (c : AccountRecord) : String :=
  if c.collectorName = "" then c.creditorName else c.collectorName

def collectionItemName (c : AccountRecord) : String :=
  collectorDisplay c ++ " (..." ++ sliceLast4 c.accountNumberPartial ++ ")"

/-- JS `s.trim()`: strip leading and trailing whitespace. -/
def trimJS (s : String) : String :=
  ((s.data.dropWhile Char.isWhitespace).reverse.dropWhile Char.isWhitespace).reverse.asString

/-- `!col.originalCreditor || col.originalCreditor.trim() === ''`. -/
def missingOC (c : AccountRecord) : Bool :=
  c.originalCreditor = "" || trimJS c.originalCreditor = ""

/-- `!col.dateOfFirstDelinquency || col.dateOfFirstDelinquency.trim() === ''`. -/
def missingDOFD (c : AccountRecord) : Bool :=
  c.dateOfFirstDelinquency = "" || trimJS c.dateOfFirstDelinquency = ""

/-! ## The detection engine, route.js copy (lines 232–419) -/

def mkOpenFindingRoute (itemName : String)
    (p : (String × String) × (String × String) × Int) : Finding :=
  { type := "DATE_MISMATCH_OPEN", item := itemName,
    bureausAffected := [p.1.1, p.2.1.1], severity := "high",
    basis := "FCRA 611(a)",
    evidence := "[Evidence: " ++ p.1.1 ++ " reports Open Date \"" ++ p.1.2 ++
      "\" vs " ++ p.2.1.1 ++ " reports \"" ++ p.2.1.2 ++ "\" - " ++
      toString p.2.2 ++ " day difference]",
    action := "Dispute for investigation of conflicting open dates",
    impactScore := 7, timeline := "30-45 days", claimIndicator := some false }

def mkDLAFindingRoute (itemName : String)
    (p : (String × String) × (String × String) × Int) : Finding :=
  { type := "DATE_MISMATCH_DLA", item := itemName,
    bureausAffected := [p.1.1, p.2.1.1], severity := "high",
    basis := "FCRA 611(a)",
    evidence := "[Evidence: " ++ p.1.1 ++ " reports DLA \"" ++ p.1.2 ++
      "\" vs " ++ p.2.1.1 ++ " reports \"" ++ p.2.1.2 ++ "\" - " ++
      toString p.2.2 ++ " day difference]",
    action := "Dispute for investigation of conflicting activity dates",
    impactScore := 7, timeline := "30-45 days", claimIndicator := some false }

def mkStatusFindingRoute (itemName : String) (statuses : List (String × String)) : Finding :=
  { type := "STATUS_MISMATCH", item := itemName,
    bureausAffected := statuses.map (fun s => s.1), severity := "high",
    basis := "FCRA 611(a)",
    evidence := "[Evidence: Status conflict - " ++
      String.intercalate " vs " (statuses.map (fun s => s.1 ++ ": \"" ++ s.2 ++ "\"")) ++ "]",
    action := "Dispute for investigation of conflicting account statuses",
    impactScore := 8, timeline := "30-45 days", claimIndicator := some false }

def mkLimitFindingRoute (itemName : String) (limits : List (String × Int)) : Finding :=
  { type := "LIMIT_MISMATCH", item := itemName,
    bureausAffected := limits.map (fun l => l.1), severity := "low",
    basis := "FCRA 611(a)",
    evidence := "[Evidence: Credit limit mismatch - " ++
      String.intercalate " vs " (limits.map (fun l => l.1 ++ ": $" ++ toString l.2)) ++ "]",
    action := "Dispute for correction of credit limit (affects utilization)",
    impactScore := 4, timeline := "30-45 days", claimIndicator := some false }

def processGroupRoute (items : List AccountRecord) : List Finding :=
  if items.length < 2 then [] else
  let itemName := itemNameOf items
  let openDates := openDatesOf items
  let dlaValues := dlaValuesOf items
  let statuses := statusesOf items
  let limits := limitsOf items
  (if 2 ≤ openDates.length then (datePairScan openDates).map (mkOpenFindingRoute itemName) else [])
  ++ (if 2 ≤ dlaValues.length then (datePairScan dlaValues).map (mkDLAFindingRoute itemName) else [])
  ++ (if 2 ≤ statuses.length ∧
        1 < (uniqueFirst (statuses.map (fun s => normalizeStatus s.2))).length then
        [mkStatusFindingRoute itemName statuses] else [])
  ++ (if 2 ≤ limits.length ∧ limits.any (fun l => 0 < l.2) ∧
        1 < (uniqueFirstInt (limits.map (fun l => l.2))).length then
        [mkLimitFindingRoute itemName limits] else [])

def collectionFindingsRoute (c : AccountRecord) : List Finding :=
  (if missingOC c then
    [{ type := "MISSING_OC", item := collectionItemName c,
       bureausAffected := [c.bureau], severity := "medium",
       basis := "FDCPA 809(a)",
       evidence := "[Evidence: Collection \"" ++ collectorDisplay c ++ "\" on " ++
         c.bureau ++ " does not identify Original Creditor]",
       action := "Dispute for incomplete reporting - Original Creditor required",
       impactScore := 6, timeline := "30-45 days", claimIndicator := some true }]
   else [])
  ++ (if missingDOFD c then
    [{ type := "MISSING_DOFD", item := collectionItemName c,
       bureausAffected := [c.bureau], severity := "high",
       basis := "FCRA 623(a)(2)",
       evidence := "[Evidence: Collection \"" ++ collectorDisplay c ++ "\" on " ++
         c.bureau ++ " missing DOFD - required per FCRA 623(a)(2)]",
       action := "Dispute for incomplete reporting - DOFD required for 7-year calculation",
       impactScore := 8, timeline := "30-45 days", claimIndicator := some true }]
   else [])

/-- `runDetectionEngine` of `src/app/api/audit/route.js`. -/
def runDetectionEngine (tradelines collections : List AccountRecord) : List Finding :=
  assignIds
    ((groupTradelines 10 tradelines).flatMap (fun g => processGroupRoute g.2)
      ++ collections.flatMap collectionFindingsRoute)

/-! ## The detection engine, p000 copy (part_000 lines 272–459)

Differences from the route copy: the creditor key keeps 12 characters, the
open-date and DLA scans stop after the first finding of the group (the extra
outer-loop guard), and no finding carries a `claimIndicator` (or any of the
other optional properties). -/

def mkOpenFinding000 (itemName : String)
    (p : (String × String) × (String × String) × Int) : Finding :=
  { type := "DATE_MISMATCH_OPEN", item := itemName,
    bureausAffected := [p.1.1, p.2.1.1], severity := "high",
    basis := "FCRA 611(a)",
    evidence := "[Evidence: " ++ p.1.1 ++ " reports Open Date \"" ++ p.1.2 ++
      "\" vs " ++ p.2.1.1 ++ " reports \"" ++ p.2.1.2 ++ "\" - " ++
      toString p.2.2 ++ " day difference]",
    action := "Dispute for investigation of conflicting open dates",
    impactScore := 7, timeline := "30-45 days" }

def mkDLAFinding000 (itemName : String)
    (p : (String × String) × (String × String) × Int) : Finding :=
  { type := "DATE_MISMATCH_DLA", item := itemName,
    bureausAffected := [p.1.1, p.2.1.1], severity := "high",
    basis := "FCRA 611(a)",
    evidence := "[Evidence: " ++ p.1.1 ++ " reports DLA \"" ++ p.1.2 ++
      "\" vs " ++ p.2.1.1 ++ " reports \"" ++ p.2.1.2 ++ "\" - " ++
      toString p.2.2 ++ " day difference]",
    action := "Dispute for investigation of conflicting activity dates",
    impactScore := 7, timeline := "30-45 days" }

def mkStatusFinding000 (itemName : String) (statuses : List (String × String)) : Finding :=
  { type := "STATUS_MISMATCH", item := itemName,
    bureausAffected := statuses.map (fun s => s.1), severity := "high",
    basis := "FCRA 611(a)",
    evidence := "[Evidence: Status conflict - " ++
      String.intercalate " vs " (statuses.map (fun s => s.1 ++ ": \"" ++ s.2 ++ "\"")) ++ "]",
    action := "Dispute for investigation of conflicting account statuses",
    impactScore := 8, timeline := "30-45 days" }

def mkLimitFinding000 (itemName : String) (limits : List (String × Int)) : Finding :=
  { type := "LIMIT_MISMATCH", item := itemName,
    bureausAffected := limits.map (fun l => l.1), severity := "low",
    basis := "FCRA 611(a)",
    evidence := "[Evidence: Credit limit mismatch - " ++
      String.intercalate " vs " (limits.map (fun l => l.1 ++ ": $" ++ toString l.2)) ++ "]",
    action := "Dispute for correction of credit limit (affects utilization)",
    impactScore := 4, timeline := "30-45 days" }

def processGroup000 (items : List AccountRecord) : List Finding :=
  if items.length < 2 then [] else
  let itemName := itemNameOf items
  let openDates := openDatesOf items
  let dlaValues := dlaValuesOf items
  let statuses := statusesOf items
  let limits := limitsOf items
  (if 2 ≤ openDates.length then
    match datePairScanFirstOnly openDates with
    | some p => [mkOpenFinding000 itemName p]
    | none => []
   else [])
  ++ (if 2 ≤ dlaValues.length then
    match datePairScanFirstOnly dlaValues with
    | some p => [mkDLAFinding000 itemName p]
    | none => []
   else [])
  ++ (if 2 ≤ statuses.length ∧
        1 < (uniqueFirst (statuses.map (fun s => normalizeStatus s.2))).length then
        [mkStatusFinding000 itemName statuses] else [])
  ++ (if 2 ≤ limits.length ∧ limits.any (fun l => 0 < l.2) ∧
        1 < (uniqueFirstInt (limits.map (fun l => l.2))).length then
        [mkLimitFinding000 itemName limits] else [])

def collectionFindings000 (c : AccountRecord) : List Finding :=
  (if missingOC c then
    [{ type := "MISSING_OC", item := collectionItemName c,
       bureausAffected := [c.bureau], severity := "medium",
       basis := "FDCPA 809(a)",
       evidence := "[Evidence: Collection \"" ++ collectorDisplay c ++ "\" on " ++
         c.bureau ++ " does not identify Original Creditor]",
       action := "Dispute for incomplete reporting - Original Creditor required",
       impactScore := 6, timeline := "30-45 days" }]
   else [])
  ++ (if missingDOFD c then
    [{ type := "MISSING_DOFD", item := collectionItemName c,
       bureausAffected := [c.bureau], severity := "high",
       basis := "FCRA 623(a)(2)",
       evidence := "[Evidence: Collection \"" ++ collectorDisplay c ++ "\" on " ++
         c.bureau ++ " missing DOFD - required per FCRA 623(a)(2)]",
       action := "Dispute for incomplete reporting - DOFD required for 7-year calculation",
       impactScore := 8, timeline := "30-45 days" }]
   else [])

/-- `runDetectionEngine` of `src/unnamed/part_000`. -/
def runDetectionEngine_p000 (tradelines collections : List AccountRecord) : List Finding :=
  assignIds
    ((groupTradelines 12 tradelines).flatMap (fun g => processGroup000 g.2)
      ++ collections.flatMap collectionFindings000)

/-! ## The detection engine, p001 copy (part_001 lines 152–328)

Differences from the route copy: `§` in the legal citations, and every
finding additionally carries `documentationNeeded: []` and `dependencies: []`
(plus `cannotConfirm` on the collection findings).  The status rule counts
distinct values with `new Set(...)` and the limit rule tests a differing pair
directly; both agree with the route conditions (proved below). -/

def mkOpenFinding001 (itemName : String)
    (p : (String × String) × (String × String) × Int) : Finding :=
  { type := "DATE_MISMATCH_OPEN", item := itemName,
    bureausAffected := [p.1.1, p.2.1.1], severity := "high",
    basis := "FCRA §611(a)",
    evidence := "[Evidence: " ++ p.1.1 ++ " reports Open Date \"" ++ p.1.2 ++
      "\" vs " ++ p.2.1.1 ++ " reports \"" ++ p.2.1.2 ++ "\" - " ++
      toString p.2.2 ++ " day difference]",
    action := "Dispute for investigation of conflicting open dates",
    impactScore := 7, timeline := "30-45 days", claimIndicator := some false,
    documentationNeeded := some [], dependencies := some [] }

def mkDLAFinding001 (itemName : String)
    (p : (String × String) × (String × String) × Int) : Finding :=
  { type := "DATE_MISMATCH_DLA", item := itemName,
    bureausAffected := [p.1.1, p.2.1.1], severity := "high",
    basis := "FCRA §611(a)",
    evidence := "[Evidence: " ++ p.1.1 ++ " reports DLA \"" ++ p.1.2 ++
      "\" vs " ++ p.2.1.1 ++ " reports \"" ++ p.2.1.2 ++ "\" - " ++
      toString p.2.2 ++ " day difference]",
    action := "Dispute for investigation of conflicting activity dates",
    impactScore := 7, timeline := "30-45 days", claimIndicator := some false,
    documentationNeeded := some [], dependencies := some [] }

def mkStatusFinding001 (itemName : String) (statuses : List (String × String)) : Finding :=
  { type := "STATUS_MISMATCH", item := itemName,
    bureausAffected := statuses.map (fun s => s.1), severity := "high",
    basis := "FCRA §611(a)",
    evidence := "[Evidence: Status conflict - " ++
      String.intercalate " vs " (statuses.map (fun s => s.1 ++ ": \"" ++ s.2 ++ "\"")) ++ "]",
    action := "Dispute for investigation of conflicting account statuses",
    impactScore := 8, timeline := "30-45 days", claimIndicator := some false,
    documentationNeeded := some [], dependencies := some [] }

def mkLimitFinding001 (itemName : String) (limits : List (String × Int)) : Finding :=
  { type := "LIMIT_MISMATCH", item := itemName,
    bureausAffected := limits.map (fun l => l.1), severity := "low",
    basis := "FCRA §611(a)",
    evidence := "[Evidence: Credit limit mismatch - " ++
      String.intercalate " vs " (limits.map (fun l => l.1 ++ ": $" ++ toString l.2)) ++ "]",
    action := "Dispute for correction of credit limit (affects utilization)",
    impactScore := 4, timeline := "30-45 days", claimIndicator := some false,
    documentationNeeded := some [], dependencies := some [] }

def processGroup001 (items : List AccountRecord) : List Finding :=
  if items.length < 2 then [] else
  let itemName := itemNameOf items
  let openDates := openDatesOf items
  let dlaValues := dlaValuesOf items
  let statuses := statusesOf items
  let limits := limitsOf items
  (if 2 ≤ openDates.length then (datePairScan openDates).map (mkOpenFinding001 itemName) else [])
  ++ (if 2 ≤ dlaValues.length then (datePairScan dlaValues).map (mkDLAFinding001 itemName) else [])
  ++ (if 2 ≤ statuses.length ∧
        1 < setSizeJS (statuses.map (fun s => normalizeStatus s.2)) then
        [mkStatusFinding001 itemName statuses] else [])
  ++ (if 2 ≤ limits.length ∧ limits.any (fun l => 0 < l.2) ∧ hasMismatchJS limits then
        [mkLimitFinding001 itemName limits] else [])

def collectionFindings001 (c : AccountRecord) : List Finding :=
  (if missingOC c then
    [{ type := "MISSING_OC", item := collectionItemName c,
       bureausAffected := [c.bureau], severity := "medium",
       basis := "FDCPA §809(a)",
       evidence := "[Evidence: Collection \"" ++ collectorDisplay c ++ "\" on " ++
         c.bureau ++ " does not identify Original Creditor]",
       action := "Dispute for incomplete reporting - Original Creditor required",
       impactScore := 6, timeline := "30-45 days", claimIndicator := some true,
       cannotConfirm := some "Cannot confirm debt ownership chain without Original Creditor",
       documentationNeeded := some ["Debt validation letter", "Original creditor documentation"],
       dependencies := some [] }]
   else [])
  ++ (if missingDOFD c then
    [{ type := "MISSING_DOFD", item := collectionItemName c,
       bureausAffected := [c.bureau], severity := "high",
       basis := "FCRA §623(a)(2)",
       evidence := "[Evidence: Collection \"" ++ collectorDisplay c ++ "\" on " ++
         c.bureau ++ " missing DOFD - required per FCRA §623(a)(2)]",
       action := "Dispute for incomplete reporting - DOFD required for 7-year calculation",
       impactScore := 8, timeline := "30-45 days", claimIndicator := some true,
       cannotConfirm := some "Cannot confirm 7-year reporting period without DOFD",
       documentationNeeded := some ["Original creditor records showing delinquency date"],
       dependencies := some [] }]
   else [])

/-- `runDetectionEngine` of `src/unnamed/part_001`. -/
def runDetectionEngine_p001 (tradelines collections : List AccountRecord) : List Finding :=
  assignIds
    ((groupTradelines 10 tradelines).flatMap (fun g => processGroup001 g.2)
      ++ collections.flatMap collectionFindings001)

/-! ## The detection engine, p004 copy (part_004 lines 361–594)

Like the p001 copy, plus a last-payment-date mismatch rule, a different
limit-rule action string, and the expired-inquiry rule, which reads the wall
clock (`const today = new Date()`); `today` is passed explicitly as a civil
day number (the JS value also carries a time of day; the rule only compares
the difference against 730 days). -/

def mkPaymentFinding004 (itemName : String)
    (p : (String × String) × (String × String) × Int) : Finding :=
  { type := "DATE_MISMATCH_PAYMENT", item := itemName,
    bureausAffected := [p.1.1, p.2.1.1], severity := "medium",
    basis := "FCRA §611(a)",
    evidence := "[Evidence: " ++ p.1.1 ++ " reports Last Payment \"" ++ p.1.2 ++
      "\" vs " ++ p.2.1.1 ++ " reports \"" ++ p.2.1.2 ++ "\" - " ++
      toString p.2.2 ++ " day difference]",
    action := "Dispute for investigation of conflicting payment dates",
    impactScore := 5, timeline := "30-45 days", claimIndicator := some false,
    documentationNeeded := some [], dependencies := some [] }

def mkLimitFinding004 (itemName : String) (limits : List (String × Int)) : Finding :=
  { type := "LIMIT_MISMATCH", item := itemName,
    bureausAffected := limits.map (fun l => l.1), severity := "low",
    basis := "FCRA §611(a)",
    evidence := "[Evidence: Credit limit mismatch - " ++
      String.intercalate " vs " (limits.map (fun l => l.1 ++ ": $" ++ toString l.2)) ++ "]",
    action := "Dispute for correction of credit limit (affects utilization ratio)",
    impactScore := 4, timeline := "30-45 days", claimIndicator := some false,
    documentationNeeded := some [], dependencies := some [] }

def processGroup004 (items : List AccountRecord) : List Finding :=
  if items.length < 2 then [] else
  let itemName := itemNameOf items
  let openDates := openDatesOf items
  let dlaValues := dlaValuesOf items
  let payDates := payDatesOf items
  let statuses := statusesOf items
  let limits := limitsOf items
  (if 2 ≤ openDates.length then (datePairScan openDates).map (mkOpenFinding001 itemName) else [])
  ++ (if 2 ≤ dlaValues.length then (datePairScan dlaValues).map (mkDLAFinding001 itemName) else [])
  ++ (if 2 ≤ payDates.length then (datePairScan payDates).map (mkPaymentFinding004 itemName) else [])
  ++ (if 2 ≤ statuses.length ∧
        1 < setSizeJS (statuses.map (fun s => normalizeStatus s.2)) then
        [mkStatusFinding001 itemName statuses] else [])
  ++ (if 2 ≤ limits.length ∧ limits.any (fun l => 0 < l.2) ∧ hasMismatchJS limits then
        [mkLimitFinding004 itemName limits] else [])

/-- The p004 expired-inquiry rule: a hard inquiry whose age at `today`
exceeds 730 days.  An unparseable `inquiryDate` gives `NaN > 730 = false`
in JS, modelled by the `none` branch. -/
def inquiryFindings004 (today : Int) (inq : InquiryRecord) : List Finding :=
  if inq.inquiryDate ≠ "" ∧ inq.inquiryType = "hard" then
    match parseISODate inq.inquiryDate with
    | some d =>
      if 730 < today - d then
        [{ type := "INQUIRY_EXPIRED", item := inq.creditorName,
           bureausAffected := [inq.bureau], severity := "low",
           basis := "FCRA §605(a)(3)",
           evidence := "[Evidence: Hard inquiry dated " ++ inq.inquiryDate ++
             " is over 2 years old]",
           action := "Dispute for removal - inquiry exceeds 2-year reporting period",
           impactScore := 3, timeline := "30-45 days", claimIndicator := some false,
           documentationNeeded := some [], dependencies := some [] }]
      else []
    | none => []
  else []

/-- `runDetectionEngine` of `src/unnamed/part_004` (its collection block is
character-identical to the p001 one, so `collectionFindings001` is reused). -/
def runDetectionEngine_p004 (tradelines collections : List AccountRecord)
    (inquiries : List InquiryRecord) (today : Int) : List Finding :=
  assignIds
    ((groupTradelines 10 tradelines).flatMap (fun g => processGroup004 g.2)
      ++ collections.flatMap collectionFindings001
      ++ inquiries.flatMap (inquiryFindings004 today))

/-! ## Per-bureau record materialization (p001 lines 102–130, p004 lines 192–219) -/

/-- The per-bureau field map assembled from a block's column captures.
A field is `some v` exactly when the JS object has the property (captures
are non-empty strings, checked truthy before assignment). -/
structure BureauFields where
  accountNumber : Option String := none
  openDate : Option String := none
  dateOfLastActivity : Option String := none
  lastPaymentDate : Option String := none
  currentBalance : Option String := none
  creditLimit : Option String := none
  status : Option String := none
deriving Repr, DecidableEq, Inhabited

/-- JS `(s || '').replace(/\*/g, '')`. -/
def removeStars (s : String) : String :=
  (s.data.filter (fun c => c ≠ '*')).asString

/-- The emission guard `data.accountNumber || data.currentBalance || data.openDate`. -/
def bureauHasData (d : BureauFields) : Bool :=
  d.accountNumber.isSome || d.currentBalance.isSome || d.openDate.isSome

/-- The `['TU','EX','EQ'].forEach(...)` materialization loop of the p001
extractor (p004 is identical up to its extra `accountType` field, which no
engine reads): for each bureau passing `bureauHasData`, build one record;
`accountId++` runs only on emitted records. -/
def materializeBureaus (creditorName : String) (isCollection : Bool) (startId : Nat)
    (tu ex eq : BureauFields) : List AccountRecord :=
  let cands := [("TU", tu), ("EX", ex), ("EQ", eq)]
  (cands.filter (fun c => bureauHasData c.2)).enum.map (fun ic =>
    let bureau := ic.2.1
    let d := ic.2.2
    { id := (if isCollection then "c" else "t") ++ toString (startId + ic.1),
      creditorName := creditorName,
      accountNumberPartial := sliceLast4 (removeStars (d.accountNumber.getD "")),
      bureau := bureau,
      status := d.status.getD "",
      openDate := parseDate (d.openDate.getD ""),
      dateOfFirstDelinquency := "",
      dateOfLastActivity := parseDate (d.dateOfLastActivity.getD ""),
      lastPaymentDate := parseDate (d.lastPaymentDate.getD ""),
      creditLimit := parseNumber (d.creditLimit.getD ""),
      currentBalance := parseNumber (d.currentBalance.getD ""),
      isCollection := isCollection,
      collectorName := if isCollection then creditorName else "",
      originalCreditor := "",
      isMedical := isCollection && containsCI creditorName "medical" })

/-! ## Fallback extraction (route.js lines 163–213, p000 `simpleAccountExtraction`) -/

/-- Collection-agency fragments tested by `credName.match(/COLLECT|.../i)`. -/
def collectionFragsRoute : List String :=
  ["COLLECT", "RECOVERY", "PORTFOLIO", "MIDLAND", "LVNV", "CAVALRY"]

def collectionFrags000 : List String :=
  ["COLLECT", "RECOVERY", "PORTFOLIO", "MIDLAND", "LVNV", "CAVALRY", "RECEIVABLE"]

/-- `if (hasTU) bureaus.push('TU'); ...; if empty default to all three`. -/
def fallbackBureaus (hasTU hasEX hasEQ : Bool) : List String :=
  let bs := (if hasTU then ["TU"] else []) ++ (if hasEX then ["EX"] else [])
    ++ (if hasEQ then ["EQ"] else [])
  if bs = [] then ["TU", "EX", "EQ"] else bs

/-- The route.js fallback loop over `sampleCreditors = uniqueCreditors.slice(0, 20)`:
one record per (candidate, bureau), split into tradelines and collections by
push order.  `uniqueCreditors` and `dates` are the candidate/date lists the
upstream regex scans produce (their extraction is not modelled; the claims
below concern the caps and the emitted records).  `accountId` increments once
per record, so record `(c, b)` gets number `c*|bureaus| + b + 1`. -/
def routeFallbackAccounts (uniqueCreditors dates : List String)
    (hasTU hasEX hasEQ : Bool) : List AccountRecord × List AccountRecord :=
  let bureaus := fallbackBureaus hasTU hasEX hasEQ
  let sampleCreditors := uniqueCreditors.take 20
  let all := sampleCreditors.enum.flatMap (fun cn =>
    let c := cn.1
    let credName := cn.2
    let isCollection := containsAnyCI credName collectionFragsRoute
    bureaus.enum.map (fun bb =>
      let b := bb.1
      let dateIndex := (c * bureaus.length + b) % max dates.length 1
      let dlaDateIndex := (dateIndex + b + 1) % max dates.length 1
      ({ id := (if isCollection then "c" else "t") ++ toString (c * bureaus.length + b + 1),
          creditorName := credName,
          accountNumberPartial := sliceLast4 (toString (1000 + c)),
          bureau := bb.2,
          status := if isCollection then "Collection"
            else if c % 3 = 0 then "Open" else "Closed",
          openDate := ((dates.get? dateIndex).map parseDate).getD "",
          dateOfFirstDelinquency := "",
          dateOfLastActivity := ((dates.get? dlaDateIndex).map parseDate).getD "",
          lastPaymentDate := "",
          creditLimit := if c % 2 = 0 then some 5000 else none,
          currentBalance := some (if c % 4 = 0 then 1000 else 0),
          isCollection := isCollection,
          collectorName := if isCollection then credName else "",
          originalCreditor := "",
          isMedical := isCollection && containsCI credName "medical" } : AccountRecord)))
  (all.filter (fun a => !a.isCollection), all.filter (fun a => a.isCollection))

/-- `simpleAccountExtraction` of the p000 copy: fixed three-bureau list,
`maxCreditors = Math.min(uniqueCreditors.length, 15)`, dates capped at 100. -/
def simpleAccountExtraction (uniqueCreditors dateMatches : List String) :
    List AccountRecord × List AccountRecord :=
  let dates := dateMatches.take 100
  let bureaus : List String := ["TU", "EX", "EQ"]
  let all := (uniqueCreditors.take 15).enum.flatMap (fun cn =>
    let c := cn.1
    let credName := cn.2
    let isCollection := containsAnyCI credName collectionFrags000
    bureaus.enum.map (fun bb =>
      let b := bb.1
      let dateIdx := (c * 3 + b) % max dates.length 1
      let dateIdx2 := (c * 3 + b + 1) % max dates.length 1
      ({ id := (if isCollection then "c" else "t") ++ toString (c * 3 + b + 1),
          creditorName := credName,
          accountNumberPartial := sliceLast4 (toString (1000 + c)),
          bureau := bb.2,
          status := if b = 0 then "Open" else if b = 1 then "Closed" else "Open",
          openDate := ((dates.get? dateIdx).map parseDate_p000).getD "",
          dateOfFirstDelinquency := "",
          dateOfLastActivity := ((dates.get? dateIdx2).map parseDate_p000).getD "",
          lastPaymentDate := "",
          creditLimit := if b = 0 then some 5000 else if b = 1 then some 5000 else none,
          currentBalance := some 0,
          isCollection := isCollection,
          collectorName := if isCollection then credName else "",
          originalCreditor := "",
          isMedical := false } : AccountRecord)))
  (all.filter (fun a => !a.isCollection), all.filter (fun a => a.isCollection))

/-! ## Helper lemmas -/

theorem mem_assignIdsFrom {f : Finding} :
    ∀ {n : Nat} {l : List Finding}, f ∈ assignIdsFrom n l →
      ∃ g ∈ l, ∃ m, f = { g with id := m } := by
  intro n l
  induction l generalizing n with
  | nil => intro h; simp [assignIdsFrom] at h
  | cons g gs ih =>
    intro h
    rcases List.mem_cons.mp h with h | h
    · exact ⟨g, List.mem_cons_self .., n, h⟩
    · obtain ⟨g', hg', m, hm⟩ := ih h
      exact ⟨g', List.mem_cons_of_mem _ hg', m, hm⟩

/-- Mapping a selector that ignores `id` commutes with id assignment. -/
theorem map_assignIdsFrom {α : Type} (sel : Finding → α)
    (hsel : ∀ f m, sel { f with id := m } = sel f) :
    ∀ (n : Nat) (l : List Finding), (assignIdsFrom n l).map sel = l.map sel := by
  intro n l
  induction l generalizing n with
  | nil => rfl
  | cons g gs ih => simp [assignIdsFrom, hsel, ih]

/-- Filtering by a predicate that ignores `id` commutes with id assignment,
up to such a selector. -/
theorem filter_map_assignIdsFrom {α : Type} (p : Finding → Bool) (sel : Finding → α)
    (hp : ∀ f m, p { f with id := m } = p f)
    (hsel : ∀ f m, sel { f with id := m } = sel f) :
    ∀ (n : Nat) (l : List Finding),
      ((assignIdsFrom n l).filter p).map sel = (l.filter p).map sel := by
  intro n l
  induction l generalizing n with
  | nil => rfl
  | cons g gs ih =>
    simp only [assignIdsFrom, List.filter_cons, hp]
    by_cases h : p g = true
    · simp [h, hsel, ih]
    · simp [h, ih]

theorem countP_assignIdsFrom (p : Finding → Bool)
    (hp : ∀ f m, p { f with id := m } = p f) :
    ∀ (n : Nat) (l : List Finding), (assignIdsFrom n l).countP p = l.countP p := by
  intro n l
  induction l generalizing n with
  | nil => rfl
  | cons g gs ih => simp [assignIdsFrom, List.countP_cons, hp, ih]

theorem addToGroups_members {P : AccountRecord → Prop}
    {gs : List (String × List AccountRecord)} {k : String} {t : AccountRecord}
    (hgs : ∀ g ∈ gs, ∀ r ∈ g.2, P r) (ht : P t) :
    ∀ g ∈ addToGroups gs k t, ∀ r ∈ g.2, P r := by
  intro g hg r hr
  unfold addToGroups at hg
  split at hg
  · obtain ⟨g', hg', rfl⟩ := List.mem_map.mp hg
    by_cases hk : g'.1 = k
    · simp only [hk, if_pos rfl] at hr
      rcases List.mem_append.mp hr with h | h
      · exact hgs g' hg' r h
      · simp at h; subst h; exact ht
    · simp only [if_neg hk] at hr
      exact hgs g' hg' r hr
  · rcases List.mem_append.mp hg with h | h
    · exact hgs _ h r hr
    · simp at h; subst h; simp at hr; subst hr; exact ht

theorem groupTradelines_members {P : AccountRecord → Prop} {cap : Nat}
    {ts : List AccountRecord} (h : ∀ t ∈ ts, P t) :
    ∀ g ∈ groupTradelines cap ts, ∀ r ∈ g.2, P r := by
  unfold groupTradelines
  suffices H : ∀ (ts' : List AccountRecord) (gs : List (String × List AccountRecord)),
      (∀ t ∈ ts', P t) → (∀ g ∈ gs, ∀ r ∈ g.2, P r) →
      ∀ g ∈ ts'.foldl (fun gs t => addToGroups gs (groupKey cap t) t) gs, ∀ r ∈ g.2, P r by
    exact H ts [] h (by simp)
  intro ts'
  induction ts' with
  | nil => intro gs _ hgs; simpa using hgs
  | cons t rest ih =>
    intro gs hts hgs
    simp only [List.foldl_cons]
    exact ih (addToGroups gs (groupKey cap t) t)
      (fun x hx => hts x (List.mem_cons_of_mem _ hx))
      (addToGroups_members hgs (hts t (List.mem_cons_self ..)))

theorem firstFarPair_mem {x : String × String} :
    ∀ {l : List (String × String)} {p},
      firstFarPair x l = some p → p.1 = x ∧ p.2.1 ∈ l := by
  intro l
  induction l with
  | nil => intro p h; simp [firstFarPair] at h
  | cons y rest ih =>
    intro p h
    unfold firstFarPair at h
    split at h
    · split at h
      · obtain rfl := Option.some_injective _ h
        exact ⟨rfl, List.mem_cons_self ..⟩
      · obtain ⟨h1, h2⟩ := ih h
        exact ⟨h1, List.mem_cons_of_mem _ h2⟩
    · obtain ⟨h1, h2⟩ := ih h
      exact ⟨h1, List.mem_cons_of_mem _ h2⟩

theorem datePairScan_mem :
    ∀ {l : List (String × String)} {p},
      p ∈ datePairScan l → p.1 ∈ l ∧ p.2.1 ∈ l := by
  intro l
  induction l with
  | nil => intro p h; simp [datePairScan] at h
  | cons x rest ih =>
    intro p h
    unfold datePairScan at h
    split at h
    next q hq =>
      rcases List.mem_cons.mp h with h | h
      · subst h
        obtain ⟨h1, h2⟩ := firstFarPair_mem hq
        exact ⟨h1 ▸ List.mem_cons_self .., List.mem_cons_of_mem _ h2⟩
      · obtain ⟨h1, h2⟩ := ih h
        exact ⟨List.mem_cons_of_mem _ h1, List.mem_cons_of_mem _ h2⟩
    · obtain ⟨h1, h2⟩ := ih h
      exact ⟨List.mem_cons_of_mem _ h1, List.mem_cons_of_mem _ h2⟩

theorem datePairScanFirstOnly_mem :
    ∀ {l : List (String × String)} {p},
      datePairScanFirstOnly l = some p → p.1 ∈ l ∧ p.2.1 ∈ l := by
  intro l
  induction l with
  | nil => intro p h; simp [datePairScanFirstOnly] at h
  | cons x rest ih =>
    intro p h
    unfold datePairScanFirstOnly at h
    split at h
    next q hq =>
      obtain rfl := Option.some_injective _ h
      obtain ⟨h1, h2⟩ := firstFarPair_mem hq
      exact ⟨h1 ▸ List.mem_cons_self .., List.mem_cons_of_mem _ h2⟩
    · obtain ⟨h1, h2⟩ := ih h
      exact ⟨List.mem_cons_of_mem _ h1, List.mem_cons_of_mem _ h2⟩

theorem mem_openDatesOf {items : List AccountRecord} {p : String × String}
    (h : p ∈ openDatesOf items) : ∃ i ∈ items, p.1 = i.bureau := by
  obtain ⟨i, hi, hp⟩ := List.mem_filterMap.mp h
  refine ⟨i, hi, ?_⟩
  by_cases hod : i.openDate ≠ "" <;> simp [hod] at hp
  exact congrArg Prod.fst hp.symm

theorem mem_dlaValuesOf {items : List AccountRecord} {p : String × String}
    (h : p ∈ dlaValuesOf items) : ∃ i ∈ items, p.1 = i.bureau := by
  obtain ⟨i, hi, hp⟩ := List.mem_filterMap.mp h
  refine ⟨i, hi, ?_⟩
  by_cases hod : i.dateOfLastActivity ≠ "" <;> simp [hod] at hp
  exact congrArg Prod.fst hp.symm

theorem mem_payDatesOf {items : List AccountRecord} {p : String × String}
    (h : p ∈ payDatesOf items) : ∃ i ∈ items, p.1 = i.bureau := by
  obtain ⟨i, hi, hp⟩ := List.mem_filterMap.mp h
  refine ⟨i, hi, ?_⟩
  by_cases hod : i.lastPaymentDate ≠ "" <;> simp [hod] at hp
  exact congrArg Prod.fst hp.symm

theorem mem_statusesOf {items : List AccountRecord} {p : String × String}
    (h : p ∈ statusesOf items) : ∃ i ∈ items, p.1 = i.bureau := by
  obtain ⟨i, hi, hp⟩ := List.mem_filterMap.mp h
  refine ⟨i, hi, ?_⟩
  by_cases hod : i.status ≠ "" <;> simp [hod] at hp
  exact congrArg Prod.fst hp.symm

theorem mem_limitsOf {items : List AccountRecord} {p : String × Int}
    (h : p ∈ limitsOf items) : ∃ i ∈ items, p.1 = i.bureau := by
  obtain ⟨i, hi, hp⟩ := List.mem_filterMap.mp h
  refine ⟨i, hi, ?_⟩
  cases hcl : i.creditLimit <;> simp [hcl] at hp
  exact congrArg Prod.fst hp.symm

/-- Every finding of the route per-group rules has a non-empty bureau list,
and each cited bureau is some group member's bureau. -/
theorem processGroupRoute_bureaus {items : List AccountRecord} {f : Finding}
    (h : f ∈ processGroupRoute items) :
    f.bureausAffected ≠ [] ∧ ∀ b ∈ f.bureausAffected, ∃ i ∈ items, b = i.bureau := by
  unfold processGroupRoute at h
  split at h
  · simp at h
  rcases List.mem_append.mp h with h | h
  rcases List.mem_append.mp h with h | h
  rcases List.mem_append.mp h with h | h
  · -- open-date findings
    split at h
    · obtain ⟨p, hp, rfl⟩ := List.mem_map.mp h
      obtain ⟨h1, h2⟩ := datePairScan_mem hp
      refine ⟨by simp [mkOpenFindingRoute], ?_⟩
      intro b hb
      simp [mkOpenFindingRoute] at hb
      rcases hb with rfl | rfl
      · obtain ⟨i, hi, hpi⟩ := mem_openDatesOf h1; exact ⟨i, hi, hpi⟩
      · obtain ⟨i, hi, hpi⟩ := mem_openDatesOf h2; exact ⟨i, hi, hpi⟩
    · simp at h
  · -- DLA findings
    split at h
    · obtain ⟨p, hp, rfl⟩ := List.mem_map.mp h
      obtain ⟨h1, h2⟩ := datePairScan_mem hp
      refine ⟨by simp [mkDLAFindingRoute], ?_⟩
      intro b hb
      simp [mkDLAFindingRoute] at hb
      rcases hb with rfl | rfl
      · obtain ⟨i, hi, hpi⟩ := mem_dlaValuesOf h1; exact ⟨i, hi, hpi⟩
      · obtain ⟨i, hi, hpi⟩ := mem_dlaValuesOf h2; exact ⟨i, hi, hpi⟩
    · simp at h
  · -- status finding
    split at h
    next hc =>
      simp at h; subst h
      constructor
      · simp only [mkStatusFindingRoute]
        have : 0 < (statusesOf items).length := by omega
        intro hmap
        rw [List.map_eq_nil_iff] at hmap
        simp [hmap] at this
      · intro b hb
        simp only [mkStatusFindingRoute] at hb
        obtain ⟨s, hs, rfl⟩ := List.mem_map.mp hb
        obtain ⟨i, hi, hpi⟩ := mem_statusesOf hs
        exact ⟨i, hi, hpi⟩
    · simp at h
  · -- limit finding
    split at h
    next hc =>
      simp at h; subst h
      constructor
      · simp only [mkLimitFindingRoute]
        have : 0 < (limitsOf items).length := by omega
        intro hmap
        rw [List.map_eq_nil_iff] at hmap
        simp [hmap] at this
      · intro b hb
        simp only [mkLimitFindingRoute] at hb
        obtain ⟨s, hs, rfl⟩ := List.mem_map.mp hb
        obtain ⟨i, hi, hpi⟩ := mem_limitsOf hs
        exact ⟨i, hi, hpi⟩
    · simp at h

/-- The same bureau-provenance property for the p004 per-group rules. -/
theorem processGroup004_bureaus {items : List AccountRecord} {f : Finding}
    (h : f ∈ processGroup004 items) :
    f.bureausAffected ≠ [] ∧ ∀ b ∈ f.bureausAffected, ∃ i ∈ items, b = i.bureau := by
  unfold processGroup004 at h
  split at h
  · simp at h
  rcases List.mem_append.mp h with h | h
  rcases List.mem_append.mp h with h | h
  rcases List.mem_append.mp h with h | h
  rcases List.mem_append.mp h with h | h
  · split at h
    · obtain ⟨p, hp, rfl⟩ := List.mem_map.mp h
      obtain ⟨h1, h2⟩ := datePairScan_mem hp
      refine ⟨by simp [mkOpenFinding001], ?_⟩
      intro b hb
      simp [mkOpenFinding001] at hb
      rcases hb with rfl | rfl
      · obtain ⟨i, hi, hpi⟩ := mem_openDatesOf h1; exact ⟨i, hi, hpi⟩
      · obtain ⟨i, hi, hpi⟩ := mem_openDatesOf h2; exact ⟨i, hi, hpi⟩
    · simp at h
  · split at h
    · obtain ⟨p, hp, rfl⟩ := List.mem_map.mp h
      obtain ⟨h1, h2⟩ := datePairScan_mem hp
      refine ⟨by simp [mkDLAFinding001], ?_⟩
      intro b hb
      simp [mkDLAFinding001] at hb
      rcases hb with rfl | rfl
      · obtain ⟨i, hi, hpi⟩ := mem_dlaValuesOf h1; exact ⟨i, hi, hpi⟩
      · obtain ⟨i, hi, hpi⟩ := mem_dlaValuesOf h2; exact ⟨i, hi, hpi⟩
    · simp at h
  · split at h
    · obtain ⟨p, hp, rfl⟩ := List.mem_map.mp h
      obtain ⟨h1, h2⟩ := datePairScan_mem hp
      refine ⟨by simp [mkPaymentFinding004], ?_⟩
      intro b hb
      simp [mkPaymentFinding004] at hb
      rcases hb with rfl | rfl
      · obtain ⟨i, hi, hpi⟩ := mem_payDatesOf h1; exact ⟨i, hi, hpi⟩
      · obtain ⟨i, hi, hpi⟩ := mem_payDatesOf h2; exact ⟨i, hi, hpi⟩
    · simp at h
  · split at h
    next hc =>
      simp at h; subst h
      constructor
      · simp only [mkStatusFinding001]
        have : 0 < (statusesOf items).length := by omega
        intro hmap
        rw [List.map_eq_nil_iff] at hmap
        simp [hmap] at this
      · intro b hb
        simp only [mkStatusFinding001] at hb
        obtain ⟨s, hs, rfl⟩ := List.mem_map.mp hb
        obtain ⟨i, hi, hpi⟩ := mem_statusesOf hs
        exact ⟨i, hi, hpi⟩
    · simp at h
  · split at h
    next hc =>
      simp at h; subst h
      constructor
      · simp only [mkLimitFinding004]
        have : 0 < (limitsOf items).length := by omega
        intro hmap
        rw [List.map_eq_nil_iff] at hmap
        simp [hmap] at this
      · intro b hb
        simp only [mkLimitFinding004] at hb
        obtain ⟨s, hs, rfl⟩ := List.mem_map.mp hb
        obtain ⟨i, hi, hpi⟩ := mem_limitsOf hs
        exact ⟨i, hi, hpi⟩
    · simp at h

theorem collectionFindingsRoute_bureaus {c : AccountRecord} {f : Finding}
    (h : f ∈ collectionFindingsRoute c) : f.bureausAffected = [c.bureau] := by
  unfold collectionFindingsRoute at h
  rcases List.mem_append.mp h with h | h <;> split at h <;> simp at h <;> subst h <;> rfl

theorem collectionFindings001_bureaus {c : AccountRecord} {f : Finding}
    (h : f ∈ collectionFindings001 c) : f.bureausAffected = [c.bureau] := by
  unfold collectionFindings001 at h
  rcases List.mem_append.mp h with h | h <;> split at h <;> simp at h <;> subst h <;> rfl

theorem inquiryFindings004_bureaus {today : Int} {inq : InquiryRecord} {f : Finding}
    (h : f ∈ inquiryFindings004 today inq) : f.bureausAffected = [inq.bureau] := by
  unfold inquiryFindings004 at h
  split at h
  · split at h
    · split at h <;> simp at h
      subst h; rfl
    · simp at h
  · simp at h

/-! ## Concrete inputs used by counterexamples and witnesses -/

def bureauSet : List String := ["TU", "EX", "EQ"]

def cexTU : AccountRecord :=
  { creditorName := "CHASE", accountNumberPartial := "1111", bureau := "TU",
    openDate := "2020-01-01" }

def cexEX : AccountRecord :=
  { creditorName := "CHASE", accountNumberPartial := "1111", bureau := "EX",
    openDate := "2020-01-02" }

def cexEQ : AccountRecord :=
  { creditorName := "CHASE", accountNumberPartial := "1111", bureau := "EQ",
    openDate := "2020-06-01" }

def cexInquiryZZ : InquiryRecord :=
  { creditorName := "OLD BANK", inquiryDate := "2020-01-01", bureau := "ZZ",
    inquiryType := "hard" }

def cexCollection : AccountRecord :=
  { creditorName := "MIDLAND CREDIT", accountNumberPartial := "4444", bureau := "TU",
    isCollection := true, collectorName := "MIDLAND CREDIT" }

/-! ## C1 -/

/-- C1, counterexample.  The claim quantifies only over the `AccountRecord`s'
bureau codes, but the p004 copy of `runDetectionEngine` also emits findings
citing an *inquiry*'s bureau code verbatim: a bundle with no account records
(so the claim's hypothesis holds) and one hard inquiry carrying bureau code
`"ZZ"` yields a finding whose `bureausAffected` is `["ZZ"]`, outside the
fixed 3-bureau set. -/
theorem detect_bureaus_cex :
    ((runDetectionEngine_p004 [] [] [cexInquiryZZ] (daysFromCivil 2023 1 1)).map
      (fun f => f.bureausAffected)) = [["ZZ"]] ∧ ("ZZ" : String) ∉ bureauSet := by
  constructor
  · rfl
  · decide

/-- C1, amended.  For every bundle whose `AccountRecord`s carry bureau codes
in `{TU, EX, EQ}`, the route.js `runDetectionEngine` (a total function: it
cannot throw) returns only findings with a non-empty `bureausAffected` ⊆
`{TU, EX, EQ}`; the p004 copy has the same property provided the inquiry
records' bureau codes are also drawn from that set. -/
theorem detect_bureaus_wellFormed :
    (∀ ts cs : List AccountRecord,
      (∀ r ∈ ts ++ cs, r.bureau ∈ bureauSet) →
      ∀ f ∈ runDetectionEngine ts cs,
        f.bureausAffected ≠ [] ∧ ∀ b ∈ f.bureausAffected, b ∈ bureauSet)
    ∧ (∀ (ts cs : List AccountRecord) (inqs : List InquiryRecord) (today : Int),
      (∀ r ∈ ts ++ cs, r.bureau ∈ bureauSet) →
      (∀ i ∈ inqs, i.bureau ∈ bureauSet) →
      ∀ f ∈ runDetectionEngine_p004 ts cs inqs today,
        f.bureausAffected ≠ [] ∧ ∀ b ∈ f.bureausAffected, b ∈ bureauSet) := by
  constructor
  · intro ts cs H f hf
    unfold runDetectionEngine assignIds at hf
    obtain ⟨g0, hg0, m, rfl⟩ := mem_assignIdsFrom hf
    show g0.bureausAffected ≠ [] ∧ ∀ b ∈ g0.bureausAffected, b ∈ bureauSet
    rcases List.mem_append.mp hg0 with h | h
    · obtain ⟨grp, hgrp, hmem⟩ := List.mem_flatMap.mp h
      obtain ⟨hne, hmem2⟩ := processGroupRoute_bureaus hmem
      refine ⟨hne, ?_⟩
      intro b hb
      obtain ⟨i, hi, rfl⟩ := hmem2 b hb
      have hts : i ∈ ts :=
        groupTradelines_members (P := fun r => r ∈ ts) (fun t ht => ht) grp hgrp i hi
      exact H i (List.mem_append_left _ hts)
    · obtain ⟨c, hc, hmem⟩ := List.mem_flatMap.mp h
      rw [collectionFindingsRoute_bureaus hmem]
      refine ⟨by simp, ?_⟩
      intro b hb
      simp at hb; subst hb
      exact H c (List.mem_append_right _ hc)
  · intro ts cs inqs today H Hinq f hf
    unfold runDetectionEngine_p004 assignIds at hf
    obtain ⟨g0, hg0, m, rfl⟩ := mem_assignIdsFrom hf
    show g0.bureausAffected ≠ [] ∧ ∀ b ∈ g0.bureausAffected, b ∈ bureauSet
    rcases List.mem_append.mp hg0 with h | h
    rcases List.mem_append.mp h with h | h
    · obtain ⟨grp, hgrp, hmem⟩ := List.mem_flatMap.mp h
      obtain ⟨hne, hmem2⟩ := processGroup004_bureaus hmem
      refine ⟨hne, ?_⟩
      intro b hb
      obtain ⟨i, hi, rfl⟩ := hmem2 b hb
      have hts : i ∈ ts :=
        groupTradelines_members (P := fun r => r ∈ ts) (fun t ht => ht) grp hgrp i hi
      exact H i (List.mem_append_left _ hts)
    · obtain ⟨c, hc, hmem⟩ := List.mem_flatMap.mp h
      rw [collectionFindings001_bureaus hmem]
      refine ⟨by simp, ?_⟩
      intro b hb
      simp at hb; subst hb
      exact H c (List.mem_append_right _ hc)
    · obtain ⟨i, hi, hmem⟩ := List.mem_flatMap.mp h
      rw [inquiryFindings004_bureaus hmem]
      refine ⟨by simp, ?_⟩
      intro b hb
      simp at hb; subst hb
      exact Hinq i hi

/-- C1, witness: the amended theorem applied to a concrete two-record bundle
that actually produces findings. -/
theorem detect_bureaus_wellFormed_witness :
    ∀ f ∈ runDetectionEngine [cexTU, cexEQ] [cexCollection],
      f.bureausAffected ≠ [] ∧ ∀ b ∈ f.bureausAffected, b ∈ bureauSet :=
  detect_bureaus_wellFormed.1 [cexTU, cexEQ] [cexCollection] (by decide)

/-! ## C2 -/

theorem firstFarPair_nil {x : String × String} : firstFarPair x [] = none := rfl

theorem datePairScan_length_le :
    ∀ l : List (String × String), (datePairScan l).length ≤ l.length - 1 := by
  intro l
  induction l with
  | nil => simp [datePairScan]
  | cons x rest ih =>
    unfold datePairScan
    cases hf : firstFarPair x rest with
    | none => simpa using Nat.le_trans ih (Nat.sub_le _ _)
    | some p =>
      cases rest with
      | nil => simp [firstFarPair_nil] at hf
      | cons y ys =>
        simp only [List.length_cons]
        have := ih
        simp only [List.length_cons, Nat.succ_sub_one] at this ⊢
        omega

theorem countP_open_mkDLARoute (n : String) (p) :
    ((mkDLAFindingRoute n p).type == "DATE_MISMATCH_OPEN") = false := by
  rfl

/-- The open-date rule of the route copy emits at most
`|dated records| - 1` findings per group (one per outer loop index). -/
theorem processGroupRoute_open_le (items : List AccountRecord) :
    (processGroupRoute items).countP (fun f => f.type == "DATE_MISMATCH_OPEN") ≤
      (openDatesOf items).length - 1 := by
  unfold processGroupRoute
  split
  · simp
  simp only [List.countP_append]
  have hdla : (if 2 ≤ (dlaValuesOf items).length then
      (datePairScan (dlaValuesOf items)).map (mkDLAFindingRoute (itemNameOf items)) else
      []).countP (fun f => f.type == "DATE_MISMATCH_OPEN") = 0 := by
    rw [List.countP_eq_zero]
    intro f hf
    split at hf
    · obtain ⟨p, _, rfl⟩ := List.mem_map.mp hf
      simp [mkDLAFindingRoute]
    · simp at hf
  have hst : (if 2 ≤ (statusesOf items).length ∧
      1 < (uniqueFirst ((statusesOf items).map (fun s => normalizeStatus s.2))).length then
      [mkStatusFindingRoute (itemNameOf items) (statusesOf items)] else
      []).countP (fun f => f.type == "DATE_MISMATCH_OPEN") = 0 := by
    rw [List.countP_eq_zero]
    intro f hf
    split at hf
    · simp at hf; subst hf; simp [mkStatusFindingRoute]
    · simp at hf
  have hlim : (if 2 ≤ (limitsOf items).length ∧ (limitsOf items).any (fun l => 0 < l.2) ∧
      1 < (uniqueFirstInt ((limitsOf items).map (fun l => l.2))).length then
      [mkLimitFindingRoute (itemNameOf items) (limitsOf items)] else
      []).countP (fun f => f.type == "DATE_MISMATCH_OPEN") = 0 := by
    rw [List.countP_eq_zero]
    intro f hf
    split at hf
    · simp at hf; subst hf; simp [mkLimitFindingRoute]
    · simp at hf
  rw [hdla, hst, hlim]
  have hopen : (if 2 ≤ (openDatesOf items).length then
      (datePairScan (openDatesOf items)).map (mkOpenFindingRoute (itemNameOf items)) else
      []).countP (fun f => f.type == "DATE_MISMATCH_OPEN") ≤
      (openDatesOf items).length - 1 := by
    split
    · rw [List.countP_map]
      calc (datePairScan (openDatesOf items)).countP _
          ≤ (datePairScan (openDatesOf items)).length := List.countP_le_length _
        _ ≤ (openDatesOf items).length - 1 := datePairScan_length_le _
    · simp
  omega

/-- The open-date rule of the p000 copy emits at most one finding per group. -/
theorem processGroup000_open_le (items : List AccountRecord) :
    (processGroup000 items).countP (fun f => f.type == "DATE_MISMATCH_OPEN") ≤ 1 := by
  unfold processGroup000
  split
  · simp
  simp only [List.countP_append]
  have hdla : (if 2 ≤ (dlaValuesOf items).length then
      match datePairScanFirstOnly (dlaValuesOf items) with
      | some p => [mkDLAFinding000 (itemNameOf items) p]
      | none => []
      else []).countP (fun f => f.type == "DATE_MISMATCH_OPEN") = 0 := by
    rw [List.countP_eq_zero]
    intro f hf
    split at hf
    · split at hf
      · simp at hf; subst hf; simp [mkDLAFinding000]
      · simp at hf
    · simp at hf
  have hst : (if 2 ≤ (statusesOf items).length ∧
      1 < (uniqueFirst ((statusesOf items).map (fun s => normalizeStatus s.2))).length then
      [mkStatusFinding000 (itemNameOf items) (statusesOf items)] else
      []).countP (fun f => f.type == "DATE_MISMATCH_OPEN") = 0 := by
    rw [List.countP_eq_zero]
    intro f hf
    split at hf
    · simp at hf; subst hf; simp [mkStatusFinding000]
    · simp at hf
  have hlim : (if 2 ≤ (limitsOf items).length ∧ (limitsOf items).any (fun l => 0 < l.2) ∧
      1 < (uniqueFirstInt ((limitsOf items).map (fun l => l.2))).length then
      [mkLimitFinding000 (itemNameOf items) (limitsOf items)] else
      []).countP (fun f => f.type == "DATE_MISMATCH_OPEN") = 0 := by
    rw [List.countP_eq_zero]
    intro f hf
    split at hf
    · simp at hf; subst hf; simp [mkLimitFinding000]
    · simp at hf
  rw [hdla, hst, hlim]
  have hopen : (if 2 ≤ (openDatesOf items).length then
      match datePairScanFirstOnly (openDatesOf items) with
      | some p => [mkOpenFinding000 (itemNameOf items) p]
      | none => []
      else []).countP (fun f => f.type == "DATE_MISMATCH_OPEN") ≤ 1 := by
    split
    · split
      · rw [List.countP_cons]
        simp only [List.countP_nil, Nat.zero_add]
        split <;> simp
      · simp
    · simp
  omega

/-- C2, counterexample.  In the route.js copy the `break` leaves only the
inner pair loop, so the three-bureau group `CHASE/1111` with open dates
2020-01-01 (TU), 2020-01-02 (EX) and 2020-06-01 (EQ) produces TWO
`DATE_MISMATCH_OPEN` findings (TU–EQ, then EX–EQ), refuting
"a group of three bureau records never yields two open-date mismatch
findings". -/
theorem openDateRule_singleFinding_cex :
    (runDetectionEngine [cexTU, cexEX, cexEQ] []).countP
      (fun f => f.type == "DATE_MISMATCH_OPEN") = 2 := by
  rfl

/-- C2, amended.  Once a qualifying pair is found, the route.js copy stops
scanning only the remaining partners of the current first element, so a
group emits at most `|dated records| - 1` open-date findings — up to two for
a three-bureau group; the p000 copy's extra guard stops the whole scan and
does emit at most one per group. -/
theorem openDateRule_perGroup_bound :
    (∀ items : List AccountRecord,
      (processGroupRoute items).countP (fun f => f.type == "DATE_MISMATCH_OPEN") ≤
        (openDatesOf items).length - 1)
    ∧ (∀ items : List AccountRecord,
      (processGroup000 items).countP (fun f => f.type == "DATE_MISMATCH_OPEN") ≤ 1) :=
  ⟨processGroupRoute_open_le, processGroup000_open_le⟩

/-! ## C3 -/

theorem groupTradelines_pair (r1 r2 : AccountRecord) (c : Nat)
    (hk : groupKey c r1 = groupKey c r2) :
    groupTradelines c [r1, r2] = [(groupKey c r1, [r1, r2])] := by
  simp [groupTradelines, addToGroups, hk]

/-- Restricted to `DATE_MISMATCH_OPEN`, a group's findings are exactly the
open-date-scan findings. -/
theorem processGroupRoute_filter_open (items : List AccountRecord) :
    (processGroupRoute items).filter (fun f => f.type == "DATE_MISMATCH_OPEN") =
      (if items.length < 2 then [] else
        if 2 ≤ (openDatesOf items).length then
          (datePairScan (openDatesOf items)).map (mkOpenFindingRoute (itemNameOf items))
        else []) := by
  unfold processGroupRoute
  split
  · simp
  simp only [List.filter_append]
  have hdla : (if 2 ≤ (dlaValuesOf items).length then
      (datePairScan (dlaValuesOf items)).map (mkDLAFindingRoute (itemNameOf items)) else
      []).filter (fun f => f.type == "DATE_MISMATCH_OPEN") = [] := by
    rw [List.filter_eq_nil_iff]
    intro f hf
    split at hf
    · obtain ⟨p, _, rfl⟩ := List.mem_map.mp hf
      simp [mkDLAFindingRoute]
    · simp at hf
  have hst : (if 2 ≤ (statusesOf items).length ∧
      1 < (uniqueFirst ((statusesOf items).map (fun s => normalizeStatus s.2))).length then
      [mkStatusFindingRoute (itemNameOf items) (statusesOf items)] else
      []).filter (fun f => f.type == "DATE_MISMATCH_OPEN") = [] := by
    rw [List.filter_eq_nil_iff]
    intro f hf
    split at hf
    · simp at hf; subst hf; simp [mkStatusFindingRoute]
    · simp at hf
  have hlim : (if 2 ≤ (limitsOf items).length ∧ (limitsOf items).any (fun l => 0 < l.2) ∧
      1 < (uniqueFirstInt ((limitsOf items).map (fun l => l.2))).length then
      [mkLimitFindingRoute (itemNameOf items) (limitsOf items)] else
      []).filter (fun f => f.type == "DATE_MISMATCH_OPEN") = [] := by
    rw [List.filter_eq_nil_iff]
    intro f hf
    split at hf
    · simp at hf; subst hf; simp [mkLimitFindingRoute]
    · simp at hf
  have hopen : (if 2 ≤ (openDatesOf items).length then
      (datePairScan (openDatesOf items)).map (mkOpenFindingRoute (itemNameOf items)) else
      []).filter (fun f => f.type == "DATE_MISMATCH_OPEN") =
      (if 2 ≤ (openDatesOf items).length then
        (datePairScan (openDatesOf items)).map (mkOpenFindingRoute (itemNameOf items))
      else []) := by
    rw [List.filter_eq_self]
    intro f hf
    split at hf
    · obtain ⟨p, _, rfl⟩ := List.mem_map.mp hf
      simp [mkOpenFindingRoute]
    · simp at hf
  rw [hdla, hst, hlim, hopen]
  simp

/-- C3: for a two-record group, open dates exactly 30 days apart yield no
`DATE_MISMATCH_OPEN` finding; exactly 31 days apart yield exactly one,
of high severity, citing both bureau codes and the 31-day count in its
evidence string. -/
theorem openDateThreshold_boundary (r1 r2 : AccountRecord)
    (hk : groupKey 10 r1 = groupKey 10 r2)
    (h1 : r1.openDate ≠ "") (h2 : r2.openDate ≠ "") :
    (daysDiff r1.openDate r2.openDate = some 30 →
      (runDetectionEngine [r1, r2] []).countP
        (fun f => f.type == "DATE_MISMATCH_OPEN") = 0)
    ∧ (daysDiff r1.openDate r2.openDate = some 31 →
      ((runDetectionEngine [r1, r2] []).filter
          (fun f => f.type == "DATE_MISMATCH_OPEN")).map
        (fun f => (f.severity, f.bureausAffected, f.evidence)) =
      [("high", [r1.bureau, r2.bureau],
        "[Evidence: " ++ r1.bureau ++ " reports Open Date \"" ++ r1.openDate ++
          "\" vs " ++ r2.bureau ++ " reports \"" ++ r2.openDate ++ "\" - " ++
          "31" ++ " day difference]")]) := by
  have hg := groupTradelines_pair r1 r2 10 hk
  have hod : openDatesOf [r1, r2] =
      [(r1.bureau, r1.openDate), (r2.bureau, r2.openDate)] := by
    simp [openDatesOf, h1, h2]
  constructor
  · intro hdiff
    have hscan : datePairScan [(r1.bureau, r1.openDate), (r2.bureau, r2.openDate)] = [] := by
      simp [datePairScan, firstFarPair, hdiff]
    unfold runDetectionEngine assignIds
    rw [countP_assignIdsFrom (fun f => f.type == "DATE_MISMATCH_OPEN") (fun f m => rfl)]
    rw [List.countP_eq_length_filter, List.filter_append]
    rw [hg]
    simp only [List.flatMap_cons, List.flatMap_nil, List.append_nil, List.filter_nil]
    rw [processGroupRoute_filter_open]
    simp [hod, hscan]
  · intro hdiff
    have hscan : datePairScan [(r1.bureau, r1.openDate), (r2.bureau, r2.openDate)] =
        [((r1.bureau, r1.openDate), (r2.bureau, r2.openDate), 31)] := by
      simp [datePairScan, firstFarPair, hdiff]
    unfold runDetectionEngine assignIds
    rw [filter_map_assignIdsFrom (fun f => f.type == "DATE_MISMATCH_OPEN")
      (fun f => (f.severity, f.bureausAffected, f.evidence))
      (fun f m => rfl) (fun f m => rfl)]
    rw [List.filter_append]
    rw [hg]
    simp only [List.flatMap_cons, List.flatMap_nil, List.append_nil, List.filter_nil]
    rw [processGroupRoute_filter_open]
    simp only [hod, hscan]
    norm_num
    exact ⟨rfl, rfl, rfl⟩

def cexEX30 : AccountRecord :=
  { creditorName := "CHASE", accountNumberPartial := "1111", bureau := "EX",
    openDate := "2020-01-31" }

def cexEX31 : AccountRecord :=
  { creditorName := "CHASE", accountNumberPartial := "1111", bureau := "EX",
    openDate := "2020-02-01" }

/-- C3, witness: concrete groups at both sides of the boundary. -/
theorem openDateThreshold_boundary_witness :
    ((runDetectionEngine [cexTU, cexEX30] []).countP
      (fun f => f.type == "DATE_MISMATCH_OPEN") = 0)
    ∧ (((runDetectionEngine [cexTU, cexEX31] []).filter
        (fun f => f.type == "DATE_MISMATCH_OPEN")).map
        (fun f => (f.severity, f.bureausAffected, f.evidence)) =
      [("high", ["TU", "EX"],
        "[Evidence: TU reports Open Date \"2020-01-01\" vs EX reports \"2020-02-01\" - 31 day difference]")]) := by
  constructor
  · exact (openDateThreshold_boundary cexTU cexEX30 (by decide) (by decide)
      (by decide)).1 (by decide)
  · have h := (openDateThreshold_boundary cexTU cexEX31 (by decide) (by decide)
      (by decide)).2 (by decide)
    exact h.trans (by decide)

/-! ## C4 -/

/-- C4, counterexample.  For the collection record `MIDLAND CREDIT/4444`
with empty `originalCreditor` and empty `dateOfFirstDelinquency`, the p000
copy of the detector emits the two findings WITHOUT any `claimIndicator`
property (modelled `none`), so "both findings have claimIndicator = true"
fails on that cited copy. -/
theorem missingFields_claimIndicator_cex :
    ((runDetectionEngine_p000 [] [cexCollection]).map
      (fun f => (f.type, f.claimIndicator)) =
      [("MISSING_OC", none), ("MISSING_DOFD", none)])
    ∧ (none : Option Bool) ≠ some true := by
  exact ⟨rfl, by decide⟩

/-- C4, amended.  A collection record with empty/whitespace-only
`originalCreditor` and empty `dateOfFirstDelinquency` yields exactly two
findings — `MISSING_OC` (medium) and `MISSING_DOFD` (high) — in every copy;
in the route.js copy both carry `claimIndicator = true`, while the p000 copy
omits the `claimIndicator` property altogether. -/
theorem missingFields_two_findings (c : AccountRecord)
    (hoc : trimJS c.originalCreditor = "") (hdofd : c.dateOfFirstDelinquency = "") :
    ((runDetectionEngine [] [c]).map (fun f => (f.type, f.severity, f.claimIndicator)) =
      [("MISSING_OC", "medium", some true), ("MISSING_DOFD", "high", some true)])
    ∧ ((runDetectionEngine_p000 [] [c]).map (fun f => (f.type, f.severity, f.claimIndicator)) =
      [("MISSING_OC", "medium", none), ("MISSING_DOFD", "high", none)]) := by
  have hoc' : missingOC c = true := by simp [missingOC, hoc]
  have hdofd' : missingDOFD c = true := by simp [missingDOFD, hdofd]
  constructor
  · unfold runDetectionEngine assignIds
    rw [map_assignIdsFrom (fun f => (f.type, f.severity, f.claimIndicator)) (fun f m => rfl)]
    simp [groupTradelines, collectionFindingsRoute, hoc', hdofd']
  · unfold runDetectionEngine_p000 assignIds
    rw [map_assignIdsFrom (fun f => (f.type, f.severity, f.claimIndicator)) (fun f m => rfl)]
    simp [groupTradelines, collectionFindings000, hoc', hdofd']

/-- C4, witness: the amended theorem at the concrete collection record. -/
theorem missingFields_two_findings_witness :
    ((runDetectionEngine [] [cexCollection]).map
      (fun f => (f.type, f.severity, f.claimIndicator)) =
      [("MISSING_OC", "medium", some true), ("MISSING_DOFD", "high", some true)])
    ∧ ((runDetectionEngine_p000 [] [cexCollection]).map
      (fun f => (f.type, f.severity, f.claimIndicator)) =
      [("MISSING_OC", "medium", none), ("MISSING_DOFD", "high", none)]) :=
  missingFields_two_findings cexCollection (by decide) (by decide)

/-! ## C5 -/

def bfStatusOnly : BureauFields := { status := some "Open" }

/-- C5, counterexample.  A block in which the `EX` column produced exactly one
non-placeholder field value — an `Account Status` of `"Open"` — materializes
NO record at all: the p001/p004 emission guard requires an account number, a
balance, or an open date, so "a bureau reporting only an Account Status value
still yields a record" fails. -/
theorem materializeBureaus_statusOnly_cex :
    materializeBureaus "XBANK" false 1 {} bfStatusOnly {} = []
    ∧ bfStatusOnly.status = some "Open" :=
  ⟨rfl, rfl⟩

/-- C5, amended.  The extractor emits one record per bureau exactly when that
bureau produced an `accountNumber`, a `currentBalance` or an `openDate`
(`bureauHasData`); any other field alone — e.g. only a status — emits
nothing, and a bureau with no fields at all emits nothing. -/
theorem materializeBureaus_guard :
    (∀ (n : String) (ic : Bool) (s : Nat) (tu ex eqf : BureauFields),
      (materializeBureaus n ic s tu ex eqf).map (fun a => a.bureau) =
        ([("TU", tu), ("EX", ex), ("EQ", eqf)].filter
          (fun c => bureauHasData c.2)).map (fun c => c.1))
    ∧ (∀ (n : String) (ic : Bool) (s : Nat),
      materializeBureaus n ic s {} {} {} = []) := by
  constructor
  · intro n ic s tu ex eqf
    unfold materializeBureaus
    cases htu : bureauHasData tu <;> cases hex : bureauHasData ex <;>
      cases heq : bureauHasData eqf <;>
      simp [htu, hex, heq, List.enum, List.enumFrom]
  · intro n ic s
    rfl

/-! ## C6 -/

theorem list_length_eq_four {α : Type} {l : List α} (h : l.length = 4) :
    ∃ a b c d, l = [a, b, c, d] := by
  cases l with
  | nil => simp at h
  | cons a t1 =>
    cases t1 with
    | nil => simp at h
    | cons b t2 =>
      cases t2 with
      | nil => simp at h
      | cons c t3 =>
        cases t3 with
        | nil => simp at h
        | cons d t4 =>
          cases t4 with
          | nil => exact ⟨a, b, c, d, rfl⟩
          | cons e t5 => simp at h

theorem takeDigits_sound :
    ∀ {n : Nat} {cs d r : List Char}, takeDigits n cs = some (d, r) → cs = d ++ r := by
  intro n
  induction n with
  | zero =>
    intro cs d r h
    simp [takeDigits] at h
    obtain ⟨rfl, rfl⟩ := h
    rfl
  | succ n ih =>
    intro cs d r h
    cases cs with
    | nil => simp [takeDigits] at h
    | cons c cs' =>
      unfold takeDigits at h
      split at h
      · cases hz : takeDigits n cs' with
        | none => rw [hz] at h; simp at h
        | some p =>
          rw [hz] at h
          simp at h
          obtain ⟨rfl, rfl⟩ := h
          simpa using congrArg (fun l => c :: l) (ih hz)
      · simp at h

theorem tryMDY_two_slashes {n1 n2 : Nat} {cs : List Char} {p}
    (h : tryMDY n1 n2 cs = some p) : 2 ≤ cs.count '/' := by
  unfold tryMDY at h
  cases h1 : takeDigits n1 cs with
  | none => simp [h1] at h
  | some q1 =>
    simp only [h1, Option.bind_eq_bind, Option.some_bind] at h
    cases h2 : expectSlash q1.2 with
    | none => simp [h2] at h
    | some r1 =>
      simp only [h2, Option.some_bind] at h
      cases h3 : takeDigits n2 r1 with
      | none => simp [h3] at h
      | some q2 =>
        simp only [h3, Option.some_bind] at h
        cases h4 : expectSlash q2.2 with
        | none => simp [h4] at h
        | some r2 =>
          have e1 := takeDigits_sound h1
          have e3 := takeDigits_sound h3
          have e2 : q1.2 = '/' :: r1 := by
            unfold expectSlash at h2; split at h2 <;> simp_all
          have e4 : q2.2 = '/' :: r2 := by
            unfold expectSlash at h4; split at h4 <;> simp_all
          subst e1
          rw [e2, e3, e4]
          simp [List.count_append, List.count_cons]
          omega

theorem matchMDYAt_two_slashes {cs : List Char} {p}
    (h : matchMDYAt cs = some p) : 2 ≤ cs.count '/' := by
  unfold matchMDYAt at h
  rcases (Option.orElse_eq_some _ _ _).mp h with h' | ⟨_, h'⟩
  · exact tryMDY_two_slashes h'
  rcases (Option.orElse_eq_some _ _ _).mp h' with h'' | ⟨_, h''⟩
  · exact tryMDY_two_slashes h''
  rcases (Option.orElse_eq_some _ _ _).mp h'' with h3 | ⟨_, h3⟩
  · exact tryMDY_two_slashes h3
  · exact tryMDY_two_slashes h3

theorem findMDY_two_slashes :
    ∀ {l : List Char} {p}, findMDY l = some p → 2 ≤ l.count '/' := by
  intro l
  induction l with
  | nil => intro p h; simp [findMDY] at h
  | cons c cs ih =>
    intro p h
    unfold findMDY at h
    rcases (Option.orElse_eq_some _ _ _).mp h with h' | ⟨_, h'⟩
    · exact matchMDYAt_two_slashes h'
    · calc 2 ≤ cs.count '/' := ih h'
        _ ≤ (c :: cs).count '/' := by simp [List.count_cons]

theorem list_length_eq_one {α : Type} {l : List α} (h : l.length = 1) : ∃ a, l = [a] := by
  cases l with
  | nil => simp at h
  | cons a t =>
    cases t with
    | nil => exact ⟨a, rfl⟩
    | cons b t2 => simp at h

theorem list_length_eq_two {α : Type} {l : List α} (h : l.length = 2) :
    ∃ a b, l = [a, b] := by
  cases l with
  | nil => simp at h
  | cons a t =>
    cases t with
    | nil => simp at h
    | cons b t2 =>
      cases t2 with
      | nil => exact ⟨a, b, rfl⟩
      | cons c t3 => simp at h

/-- On a `\d{1,2}/\d{1,2}/\d{4}`-shaped prefix the backtracking matcher
captures exactly the three digit groups. -/
theorem matchMDYAt_shape {d1 d2 d4 : List Char} (r : List Char)
    (h1 : d1.length = 1 ∨ d1.length = 2) (hd1 : ∀ c ∈ d1, c.isDigit = true)
    (h2 : d2.length = 1 ∨ d2.length = 2) (hd2 : ∀ c ∈ d2, c.isDigit = true)
    (h4 : d4.length = 4) (hd4 : ∀ c ∈ d4, c.isDigit = true) :
    matchMDYAt (d1 ++ '/' :: d2 ++ '/' :: (d4 ++ r)) = some (d1, d2, d4) := by
  have hs : ('/' : Char).isDigit = false := by decide
  obtain ⟨w, x, y, z, rfl⟩ := list_length_eq_four h4
  have hw := hd4 w (by simp)
  have hx := hd4 x (by simp)
  have hy := hd4 y (by simp)
  have hz := hd4 z (by simp)
  rcases h1 with h1 | h1
  · obtain ⟨a, rfl⟩ := list_length_eq_one h1
    have ha := hd1 a (by simp)
    rcases h2 with h2 | h2
    · obtain ⟨c, rfl⟩ := list_length_eq_one h2
      have hc := hd2 c (by simp)
      simp [matchMDYAt, tryMDY, takeDigits, expectSlash, ha, hc, hw, hx, hy, hz, hs]
    · obtain ⟨c, d, rfl⟩ := list_length_eq_two h2
      have hc := hd2 c (by simp)
      have hd := hd2 d (by simp)
      simp [matchMDYAt, tryMDY, takeDigits, expectSlash, ha, hc, hd, hw, hx, hy, hz, hs]
  · obtain ⟨a, b, rfl⟩ := list_length_eq_two h1
    have ha := hd1 a (by simp)
    have hb := hd1 b (by simp)
    rcases h2 with h2 | h2
    · obtain ⟨c, rfl⟩ := list_length_eq_one h2
      have hc := hd2 c (by simp)
      simp [matchMDYAt, tryMDY, takeDigits, expectSlash, ha, hb, hc, hw, hx, hy, hz, hs]
    · obtain ⟨c, d, rfl⟩ := list_length_eq_two h2
      have hc := hd2 c (by simp)
      have hd := hd2 d (by simp)
      simp [matchMDYAt, tryMDY, takeDigits, expectSlash, ha, hb, hc, hd, hw, hx, hy, hz, hs]

theorem findMDY_shape {d1 d2 d4 : List Char}
    (h1 : d1.length = 1 ∨ d1.length = 2) (hd1 : ∀ c ∈ d1, c.isDigit = true)
    (h2 : d2.length = 1 ∨ d2.length = 2) (hd2 : ∀ c ∈ d2, c.isDigit = true)
    (h4 : d4.length = 4) (hd4 : ∀ c ∈ d4, c.isDigit = true) :
    findMDY (d1 ++ '/' :: d2 ++ '/' :: d4) = some (d1, d2, d4) := by
  have hm := matchMDYAt_shape [] h1 hd1 h2 hd2 h4 hd4
  rw [List.append_nil] at hm
  cases d1 with
  | nil => rcases h1 with h | h <;> simp at h
  | cons a t =>
    have hsh : (a :: t) ++ '/' :: d2 ++ '/' :: d4 =
        a :: (t ++ '/' :: d2 ++ '/' :: d4) := by simp
    rw [hsh] at hm ⊢
    show (matchMDYAt (a :: (t ++ '/' :: d2 ++ '/' :: d4)) <|>
      findMDY (t ++ '/' :: d2 ++ '/' :: d4)) = some (a :: t, d2, d4)
    rw [hm]
    rfl

theorem matchMYAt_shape {d1 d4 : List Char} (r : List Char)
    (h1 : d1.length = 1 ∨ d1.length = 2) (hd1 : ∀ c ∈ d1, c.isDigit = true)
    (h4 : d4.length = 4) (hd4 : ∀ c ∈ d4, c.isDigit = true) :
    matchMYAt (d1 ++ '/' :: (d4 ++ r)) = some (d1, d4) := by
  have hs : ('/' : Char).isDigit = false := by decide
  obtain ⟨w, x, y, z, rfl⟩ := list_length_eq_four h4
  have hw := hd4 w (by simp)
  have hx := hd4 x (by simp)
  have hy := hd4 y (by simp)
  have hz := hd4 z (by simp)
  rcases h1 with h1 | h1
  · obtain ⟨a, rfl⟩ := list_length_eq_one h1
    have ha := hd1 a (by simp)
    simp [matchMYAt, tryMY, takeDigits, expectSlash, ha, hw, hx, hy, hz, hs]
  · obtain ⟨a, b, rfl⟩ := list_length_eq_two h1
    have ha := hd1 a (by simp)
    have hb := hd1 b (by simp)
    simp [matchMYAt, tryMY, takeDigits, expectSlash, ha, hb, hw, hx, hy, hz, hs]

theorem findMY_shape {d1 d4 : List Char}
    (h1 : d1.length = 1 ∨ d1.length = 2) (hd1 : ∀ c ∈ d1, c.isDigit = true)
    (h4 : d4.length = 4) (hd4 : ∀ c ∈ d4, c.isDigit = true) :
    findMY (d1 ++ '/' :: d4) = some (d1, d4) := by
  have hm := matchMYAt_shape [] h1 hd1 h4 hd4
  rw [List.append_nil] at hm
  cases d1 with
  | nil => rcases h1 with h | h <;> simp at h
  | cons a t =>
    have hsh : (a :: t) ++ '/' :: d4 = a :: (t ++ '/' :: d4) := by simp
    rw [hsh] at hm ⊢
    show (matchMYAt (a :: (t ++ '/' :: d4)) <|>
      findMY (t ++ '/' :: d4)) = some (a :: t, d4)
    rw [hm]
    rfl

theorem findMDY_none_of_no_digit :
    ∀ {l : List Char}, (∀ c ∈ l, c.isDigit = false) → findMDY l = none := by
  intro l
  induction l with
  | nil => intro _; rfl
  | cons c cs ih =>
    intro h
    have hc := h c (List.mem_cons_self ..)
    have hmat : matchMDYAt (c :: cs) = none := by
      simp [matchMDYAt, tryMDY, takeDigits, hc]
    unfold findMDY
    rw [hmat]
    simpa using ih (fun d hd => h d (List.mem_cons_of_mem _ hd))

theorem findMY_none_of_no_digit :
    ∀ {l : List Char}, (∀ c ∈ l, c.isDigit = false) → findMY l = none := by
  intro l
  induction l with
  | nil => intro _; rfl
  | cons c cs ih =>
    intro h
    have hc := h c (List.mem_cons_self ..)
    have hmat : matchMYAt (c :: cs) = none := by
      simp [matchMYAt, tryMY, takeDigits, hc]
    unfold findMY
    rw [hmat]
    simpa using ih (fun d hd => h d (List.mem_cons_of_mem _ hd))

/-- C6, counterexample.  On an unparseable input the p000 copy of `parseDate`
returns the ORIGINAL string (`return dateStr;`, part_000 line 261), not the
empty string the claim requires. -/
theorem parseDate_p000_returns_input_cex :
    parseDate_p000 "abc" = "abc" ∧ "abc" ≠ "" := by
  exact ⟨rfl, by decide⟩

/-- C6, amended.  Date normalization is three-cased in the route/p001/p004
copies: an `M/D/YYYY`-shaped input maps to `YYYY-MM-DD`, an `M/YYYY`-shaped
input maps to `YYYY-MM-01`, and an input containing no digit at all maps to
the empty string; the p000 copy agrees on the first two cases but returns
the input unchanged in the last. -/
theorem parseDate_three_cases :
    (∀ d1 d2 d4 : List Char,
      (d1.length = 1 ∨ d1.length = 2) → (∀ c ∈ d1, c.isDigit = true) →
      (d2.length = 1 ∨ d2.length = 2) → (∀ c ∈ d2, c.isDigit = true) →
      d4.length = 4 → (∀ c ∈ d4, c.isDigit = true) →
      parseDate (d1 ++ '/' :: d2 ++ '/' :: d4).asString =
        d4.asString ++ "-" ++ padTwo d1 ++ "-" ++ padTwo d2
      ∧ parseDate_p000 (d1 ++ '/' :: d2 ++ '/' :: d4).asString =
        d4.asString ++ "-" ++ padTwo d1 ++ "-" ++ padTwo d2)
    ∧ (∀ d1 d4 : List Char,
      (d1.length = 1 ∨ d1.length = 2) → (∀ c ∈ d1, c.isDigit = true) →
      d4.length = 4 → (∀ c ∈ d4, c.isDigit = true) →
      parseDate (d1 ++ '/' :: d4).asString = d4.asString ++ "-" ++ padTwo d1 ++ "-01"
      ∧ parseDate_p000 (d1 ++ '/' :: d4).asString = d4.asString ++ "-" ++ padTwo d1 ++ "-01")
    ∧ (∀ s : String, (∀ c ∈ s.data, c.isDigit = false) →
      parseDate s = "" ∧ parseDate_p000 s = s) := by
  refine ⟨?_, ?_, ?_⟩
  · intro d1 d2 d4 h1 hd1 h2 hd2 h4 hd4
    have hm := findMDY_shape h1 hd1 h2 hd2 h4 hd4
    have hne : (d1 ++ '/' :: d2 ++ '/' :: d4).asString ≠ "" := by
      intro hcon
      have hdata := congrArg String.data hcon
      simp [List.asString] at hdata
    constructor
    · unfold parseDate
      rw [if_neg hne]
      show (match findMDY (d1 ++ '/' :: d2 ++ '/' :: d4) with
        | some (m, d, y) => y.asString ++ "-" ++ padTwo m ++ "-" ++ padTwo d
        | none => _) = _
      rw [hm]
    · unfold parseDate_p000
      rw [if_neg hne]
      show (match findMDY (d1 ++ '/' :: d2 ++ '/' :: d4) with
        | some (m, d, y) => y.asString ++ "-" ++ padTwo m ++ "-" ++ padTwo d
        | none => _) = _
      rw [hm]
  · intro d1 d4 h1 hd1 h4 hd4
    have hslash : ('/' : Char).isDigit = false := by decide
    have hcount : (d1 ++ '/' :: d4).count '/' = 1 := by
      have c1 : d1.count '/' = 0 := by
        rw [List.count_eq_zero]
        intro hmem
        have := hd1 '/' hmem
        rw [hslash] at this
        exact Bool.noConfusion this
      have c4 : d4.count '/' = 0 := by
        rw [List.count_eq_zero]
        intro hmem
        have := hd4 '/' hmem
        rw [hslash] at this
        exact Bool.noConfusion this
      simp [List.count_append, List.count_cons, c1, c4]
    have hmd : findMDY (d1 ++ '/' :: d4) = none := by
      cases hmd : findMDY (d1 ++ '/' :: d4) with
      | none => rfl
      | some p =>
        have := findMDY_two_slashes hmd
        rw [hcount] at this
        omega
    have hmy := findMY_shape h1 hd1 h4 hd4
    have hne : (d1 ++ '/' :: d4).asString ≠ "" := by
      intro hcon
      have hdata := congrArg String.data hcon
      simp [List.asString] at hdata
    constructor
    · unfold parseDate
      rw [if_neg hne]
      show (match findMDY (d1 ++ '/' :: d4) with
        | some (m, d, y) => y.asString ++ "-" ++ padTwo m ++ "-" ++ padTwo d
        | none =>
          match findMY (d1 ++ '/' :: d4) with
          | some (m, y) => y.asString ++ "-" ++ padTwo m ++ "-01"
          | none => "") = _
      rw [hmd, hmy]
    · unfold parseDate_p000
      rw [if_neg hne]
      show (match findMDY (d1 ++ '/' :: d4) with
        | some (m, d, y) => y.asString ++ "-" ++ padTwo m ++ "-" ++ padTwo d
        | none =>
          match findMY (d1 ++ '/' :: d4) with
          | some (m, y) => y.asString ++ "-" ++ padTwo m ++ "-01"
          | none => (d1 ++ '/' :: d4).asString) = _
      rw [hmd, hmy]
  · intro s h
    by_cases hs : s = ""
    · subst hs; exact ⟨rfl, rfl⟩
    · unfold parseDate parseDate_p000
      rw [if_neg hs, if_neg hs, findMDY_none_of_no_digit h, findMY_none_of_no_digit h]
      exact ⟨rfl, rfl⟩

/-- C6, witness: the amended theorem at `1/2/2020`, `11/2020` and `abc`. -/
theorem parseDate_three_cases_witness :
    parseDate "1/2/2020" = "2020-01-02" ∧ parseDate "11/2020" = "2020-11-01"
    ∧ parseDate "abc" = "" ∧ parseDate_p000 "abc" = "abc" := by
  obtain ⟨hmdy, hmy, hnone⟩ := parseDate_three_cases
  refine ⟨?_, ?_, ?_, ?_⟩
  · have h := (hmdy ['1'] ['2'] ['2', '0', '2', '0'] (by decide) (by decide)
      (by decide) (by decide) (by decide) (by decide)).1
    rw [show (['1'] ++ '/' :: ['2'] ++ '/' :: ['2', '0', '2', '0']).asString =
      "1/2/2020" by decide] at h
    exact h.trans (by decide)
  · have h := (hmy ['1', '1'] ['2', '0', '2', '0'] (by decide) (by decide)
      (by decide) (by decide)).1
    rw [show (['1', '1'] ++ '/' :: ['2', '0', '2', '0']).asString = "11/2020" by decide] at h
    exact h.trans (by decide)
  · exact (hnone "abc" (by decide)).1
  · exact (hnone "abc" (by decide)).2

/-! ## C7 -/

/-- Whether a whitespace-free string starts with a `parseInt`-able integer:
an optional sign followed by at least one digit. -/
def hasLeadingInt : List Char → Bool
  | [] => false
  | c :: rest =>
    if c = '-' ∨ c = '+' then (rest.headD 'x').isDigit
    else c.isDigit

theorem leadingDigits_eq_none {l : List Char}
    (h : (l.headD 'x').isDigit = false) : leadingDigits l = none := by
  cases l with
  | nil => rfl
  | cons c rest =>
    simp only [List.headD_cons] at h
    simp [leadingDigits, List.takeWhile_cons, h]

/-- C7: `"$1,234"` parses to `1234`, `"--"` and `""` parse to `null`, the
p001/p004 `parseNumber` is the same function as the p000 `parseAmount`, and
any input whose stripped remainder does not start with an integer parses to
`null` (in particular, never to zero). -/
theorem parseAmount_spec :
    parseAmount "$1,234" = some 1234 ∧ parseAmount "--" = none ∧ parseAmount "" = none
    ∧ (∀ s : String, parseNumber s = parseAmount s)
    ∧ (∀ s : String, hasLeadingInt (stripAmount s).data = false → parseAmount s = none) := by
  refine ⟨by decide, by decide, rfl, fun s => rfl, ?_⟩
  intro s h
  unfold parseAmount
  split
  · rfl
  · unfold parseIntJS
    cases hd : (stripAmount s).data with
    | nil => rfl
    | cons c rest =>
      rw [hd] at h
      simp only [hasLeadingInt] at h
      split at h
      next hsign =>
        have hld := leadingDigits_eq_none h
        rcases hsign with rfl | rfl
        · simp [hld]
        · simp [hld]
      next hsign =>
        push_neg at hsign
        have hld : leadingDigits (c :: rest) = none :=
          leadingDigits_eq_none (by simpa using h)
        simp [hsign.1, hsign.2, hld]

/-- C7, witness: the stripped remainder of `"N/A"` starts with no integer,
so the amount parses to `null`. -/
theorem parseAmount_spec_witness : parseAmount "N/A" = none :=
  parseAmount_spec.2.2.2.2 "N/A" (by decide)

/-! ## C8 -/

def cexInquiryTU : InquiryRecord :=
  { creditorName := "OLD BANK", inquiryDate := "2020-01-01", bureau := "TU",
    inquiryType := "hard" }

/-- C8, counterexample.  The p004 copy of `runDetectionEngine` reads the wall
clock (`const today = new Date()`) in its expired-inquiry rule: on a bundle
containing one hard inquiry dated 2020-01-01, a run evaluated on 2020-06-01
emits no finding while a run evaluated on 2023-01-01 emits an
`INQUIRY_EXPIRED` finding, so the composed pipeline's output is not a
function of the input text alone. -/
theorem detect_wallClock_cex :
    runDetectionEngine_p004 [] [] [cexInquiryTU] (daysFromCivil 2020 6 1) ≠
      runDetectionEngine_p004 [] [] [cexInquiryTU] (daysFromCivil 2023 1 1) := by
  decide

/-- C8, amended.  The route.js pipeline's detection stage takes no clock
input at all, and even the p004 copy is independent of the evaluation time
whenever the bundle contains no inquiry records; only the p004
expired-inquiry rule makes the output depend on the run date. -/
theorem detect_time_independent_no_inquiries :
    ∀ (ts cs : List AccountRecord) (t t' : Int),
      runDetectionEngine_p004 ts cs [] t = runDetectionEngine_p004 ts cs [] t' := by
  intro ts cs t t'
  rfl

/-! ## C9 -/

/-- The fields on which the route.js and p001 engine copies agree for every
input: everything except the legal-citation strings (`basis`, and the `§`
inside the `MISSING_DOFD` evidence) and the p001-only object properties
(`cannotConfirm`, `documentationNeeded`, `dependencies`). -/
structure FindingCore where
  id : Nat
  type : String
  item : String
  bureausAffected : List String
  severity : String
  action : String
  impactScore : Nat
  timeline : String
  claimIndicator : Option Bool
deriving Repr, DecidableEq, Inhabited

def coreOf (f : Finding) : FindingCore :=
  { id := f.id, type := f.type, item := f.item,
    bureausAffected := f.bureausAffected, severity := f.severity,
    action := f.action, impactScore := f.impactScore, timeline := f.timeline,
    claimIndicator := f.claimIndicator }

theorem coreOf_setId (f : Finding) (n : Nat) :
    coreOf { f with id := n } = { coreOf f with id := n } := rfl

theorem map_coreOf_assignIdsFrom :
    ∀ {l l' : List Finding} (n : Nat), l.map coreOf = l'.map coreOf →
      (assignIdsFrom n l).map coreOf = (assignIdsFrom n l').map coreOf := by
  intro l
  induction l with
  | nil =>
    intro l' n h
    rw [List.map_nil] at h
    rw [List.map_eq_nil_iff.mp h.symm]
  | cons f fs ih =>
    intro l' n h
    cases l' with
    | nil => simp at h
    | cons g gs =>
      simp only [List.map_cons, List.cons.injEq] at h
      simp only [assignIdsFrom, List.map_cons, List.cons.injEq]
      refine ⟨?_, ih (n + 1) h.2⟩
      calc coreOf { f with id := n } = { coreOf f with id := n } := rfl
        _ = { coreOf g with id := n } := by rw [h.1]
        _ = coreOf { g with id := n } := rfl

theorem flatMap_congr {α β : Type} {l : List α} {f g : α → List β}
    (h : ∀ a ∈ l, f a = g a) : l.flatMap f = l.flatMap g := by
  induction l with
  | nil => rfl
  | cons x xs ih =>
    simp only [List.flatMap_cons]
    rw [h x (List.mem_cons_self ..), ih (fun a ha => h a (List.mem_cons_of_mem _ ha))]

theorem uniqueFirstInt_eq_nil {l : List Int} : uniqueFirstInt l = [] ↔ l = [] := by
  cases l <;> simp [uniqueFirstInt]

theorem one_lt_uniqueFirstInt_iff (l : List Int) :
    1 < (uniqueFirstInt l).length ↔ ∃ a ∈ l, ∃ b ∈ l, a ≠ b := by
  cases l with
  | nil => simp [uniqueFirstInt]
  | cons x xs =>
    simp only [uniqueFirstInt, List.length_cons]
    constructor
    · intro h
      have hne : uniqueFirstInt (xs.filter (fun y => y ≠ x)) ≠ [] := by
        intro hnil
        rw [hnil] at h
        simp at h
      have hfil : xs.filter (fun y => y ≠ x) ≠ [] := by
        intro hnil
        rw [uniqueFirstInt_eq_nil.mpr hnil] at hne
        exact hne rfl
      obtain ⟨y, hy⟩ := List.exists_mem_of_ne_nil _ hfil
      have hyx : y ≠ x := by simpa using List.of_mem_filter hy
      exact ⟨x, List.mem_cons_self .., y,
        List.mem_cons_of_mem _ (List.mem_of_mem_filter hy),
        fun hxy => hyx hxy.symm⟩
    · rintro ⟨a, ha, b, hb, hab⟩
      have hex : ∃ y ∈ xs, y ≠ x := by
        rcases List.mem_cons.mp ha with rfl | h1
        · rcases List.mem_cons.mp hb with rfl | h2
          · exact absurd rfl hab
          · exact ⟨b, h2, fun h => hab h.symm⟩
        · rcases List.mem_cons.mp hb with rfl | h2
          · exact ⟨a, h1, hab⟩
          · by_cases hax : a = x
            · subst hax
              exact ⟨b, h2, fun h => hab h.symm⟩
            · exact ⟨a, h1, hax⟩
      obtain ⟨y, hy, hyx⟩ := hex
      have hmem : y ∈ xs.filter (fun z => z ≠ x) :=
        List.mem_filter.mpr ⟨hy, by simpa using hyx⟩
      have hnz : uniqueFirstInt (xs.filter (fun z => z ≠ x)) ≠ [] := by
        intro hnil
        rw [uniqueFirstInt_eq_nil.mp hnil] at hmem
        simp at hmem
      have := List.length_pos.mpr hnz
      omega

theorem hasMismatchJS_iff (limits : List (String × Int)) :
    hasMismatchJS limits = true ↔ ∃ a ∈ limits, ∃ b ∈ limits, a.2 ≠ b.2 := by
  simp [hasMismatchJS, List.any_eq_true]

theorem limitCond_iff (limits : List (String × Int)) :
    1 < (uniqueFirstInt (limits.map (fun l => l.2))).length ↔
      hasMismatchJS limits = true := by
  rw [one_lt_uniqueFirstInt_iff, hasMismatchJS_iff]
  constructor
  · rintro ⟨a, ha, b, hb, hab⟩
    obtain ⟨pa, hpa, rfl⟩ := List.mem_map.mp ha
    obtain ⟨pb, hpb, rfl⟩ := List.mem_map.mp hb
    exact ⟨pa, hpa, pb, hpb, hab⟩
  · rintro ⟨a, ha, b, hb, hab⟩
    exact ⟨a.2, List.mem_map_of_mem _ ha, b.2, List.mem_map_of_mem _ hb, hab⟩

theorem processGroup_core_eq (items : List AccountRecord) :
    (processGroupRoute items).map coreOf = (processGroup001 items).map coreOf := by
  unfold processGroupRoute processGroup001
  split
  · rfl
  simp only [List.map_append]
  have hopen : ((if 2 ≤ (openDatesOf items).length then
      (datePairScan (openDatesOf items)).map (mkOpenFindingRoute (itemNameOf items)) else
      []).map coreOf) =
      ((if 2 ≤ (openDatesOf items).length then
      (datePairScan (openDatesOf items)).map (mkOpenFinding001 (itemNameOf items)) else
      []).map coreOf) := by
    split
    · simp only [List.map_map]
      exact List.map_congr_left (fun p _ => rfl)
    · rfl
  have hdla : ((if 2 ≤ (dlaValuesOf items).length then
      (datePairScan (dlaValuesOf items)).map (mkDLAFindingRoute (itemNameOf items)) else
      []).map coreOf) =
      ((if 2 ≤ (dlaValuesOf items).length then
      (datePairScan (dlaValuesOf items)).map (mkDLAFinding001 (itemNameOf items)) else
      []).map coreOf) := by
    split
    · simp only [List.map_map]
      exact List.map_congr_left (fun p _ => rfl)
    · rfl
  have hst : ((if 2 ≤ (statusesOf items).length ∧
      1 < (uniqueFirst ((statusesOf items).map (fun s => normalizeStatus s.2))).length then
      [mkStatusFindingRoute (itemNameOf items) (statusesOf items)] else
      []).map coreOf) =
      ((if 2 ≤ (statusesOf items).length ∧
      1 < setSizeJS ((statusesOf items).map (fun s => normalizeStatus s.2)) then
      [mkStatusFinding001 (itemNameOf items) (statusesOf items)] else
      []).map coreOf) := by
    simp only [setSizeJS]
    split <;> rfl
  have hlim : ((if 2 ≤ (limitsOf items).length ∧ (limitsOf items).any (fun l => 0 < l.2) ∧
      1 < (uniqueFirstInt ((limitsOf items).map (fun l => l.2))).length then
      [mkLimitFindingRoute (itemNameOf items) (limitsOf items)] else
      []).map coreOf) =
      ((if 2 ≤ (limitsOf items).length ∧ (limitsOf items).any (fun l => 0 < l.2) ∧
      hasMismatchJS (limitsOf items) then
      [mkLimitFinding001 (itemNameOf items) (limitsOf items)] else
      []).map coreOf) := by
    rw [if_congr (and_congr_right (fun _ => and_congr_right (fun _ => by
      rw [limitCond_iff]))) rfl rfl]
    split <;> rfl
  rw [hopen, hdla, hst, hlim]

theorem collectionFindings_core_eq (c : AccountRecord) :
    (collectionFindingsRoute c).map coreOf = (collectionFindings001 c).map coreOf := by
  unfold collectionFindingsRoute collectionFindings001
  simp only [List.map_append]
  congr 1 <;> split <;> rfl

/-- C9, counterexample.  On the bundle with the single collection record
`MIDLAND CREDIT/4444` the three copies of `runDetectionEngine` return
pairwise different findings lists: the p000 copy omits `claimIndicator` and
the documentation fields, the p001 copy adds `cannotConfirm` /
`documentationNeeded` and uses `§` in its legal citations, and route.js has
neither. -/
theorem engines_not_equal_cex :
    runDetectionEngine [] [cexCollection] ≠ runDetectionEngine_p000 [] [cexCollection]
    ∧ runDetectionEngine [] [cexCollection] ≠ runDetectionEngine_p001 [] [cexCollection]
    ∧ runDetectionEngine_p000 [] [cexCollection] ≠
        runDetectionEngine_p001 [] [cexCollection] := by
  exact ⟨by decide, by decide, by decide⟩

/-- C9, amended.  The route.js and p001 copies do compute the same findings
on every input once projected to the fields both copies populate (id, type,
item, bureausAffected, severity, action, impactScore, timeline,
claimIndicator); they differ only in the `§` of the citation strings and in
the p001-only properties, and the p000 copy differs further (12-character
grouping key, one-finding-per-group date scans, no claimIndicator). -/
theorem engines_core_eq :
    ∀ ts cs : List AccountRecord,
      (runDetectionEngine ts cs).map coreOf =
        (runDetectionEngine_p001 ts cs).map coreOf := by
  intro ts cs
  unfold runDetectionEngine runDetectionEngine_p001 assignIds
  apply map_coreOf_assignIdsFrom
  simp only [List.map_append]
  congr 1
  · rw [List.map_flatMap, List.map_flatMap]
    exact flatMap_congr (fun g _ => processGroup_core_eq g.2)
  · rw [List.map_flatMap, List.map_flatMap]
    exact flatMap_congr (fun c _ => collectionFindings_core_eq c)

/-! ## C10 -/

theorem length_filter_not_add {α : Type} (l : List α) (p : α → Bool) :
    (l.filter (fun a => !p a)).length + (l.filter p).length = l.length := by
  induction l with
  | nil => rfl
  | cons x xs ih =>
    cases hx : p x <;> simp [List.filter_cons, hx] <;> omega

theorem filters_length_le {α : Type} (l : List α) (p : α → Bool) {k : Nat}
    (h : l.length ≤ k) :
    (l.filter (fun a => !p a)).length + (l.filter p).length ≤ k := by
  have := length_filter_not_add l p
  omega

theorem flatMap_length_le {α β : Type} (l : List α) (f : α → List β) (k m : Nat)
    (hl : l.length ≤ k) (hf : ∀ a ∈ l, (f a).length ≤ m) :
    (l.flatMap f).length ≤ k * m := by
  induction l generalizing k with
  | nil => simp
  | cons x xs ih =>
    cases k with
    | zero => simp at hl
    | succ k' =>
      simp only [List.flatMap_cons, List.length_append]
      have h1 : (f x).length ≤ m := hf x (List.mem_cons_self ..)
      have h2 : (xs.flatMap f).length ≤ k' * m :=
        ih k' (by simpa using hl) (fun a ha => hf a (List.mem_cons_of_mem _ ha))
      calc (f x).length + (xs.flatMap f).length ≤ m + k' * m := by omega
        _ = (k' + 1) * m := by ring
        _ = (k' + 1) * m := rfl

theorem fallbackBureaus_length_le (a b c : Bool) : (fallbackBureaus a b c).length ≤ 3 := by
  cases a <;> cases b <;> cases c <;> decide

/-- C10: the fallback extractors materialize at most `3 × cap` records — 60
for the route.js copy (first 20 candidates), 45 for the p000
`simpleAccountExtraction` (first 15 candidates) — for any candidate and date
lists. -/
theorem fallback_record_caps :
    (∀ (uc dates : List String) (hTU hEX hEQ : Bool),
      (routeFallbackAccounts uc dates hTU hEX hEQ).1.length +
        (routeFallbackAccounts uc dates hTU hEX hEQ).2.length ≤ 60)
    ∧ (∀ uc dm : List String,
      (simpleAccountExtraction uc dm).1.length +
        (simpleAccountExtraction uc dm).2.length ≤ 45) := by
  constructor
  · intro uc dates a b c
    unfold routeFallbackAccounts
    apply filters_length_le
    refine le_trans (flatMap_length_le _ _ 20 3 ?_ ?_) (by norm_num)
    · rw [List.enum_length, List.length_take]
      exact Nat.min_le_left _ _
    · intro cn _
      simp only [List.length_map, List.enum_length]
      exact fallbackBureaus_length_le a b c
  · intro uc dm
    unfold simpleAccountExtraction
    apply filters_length_le
    refine le_trans (flatMap_length_le _ _ 15 3 ?_ ?_) (by norm_num)
    · rw [List.enum_length, List.length_take]
      exact Nat.min_le_left _ _
    · intro cn _
      simp [List.enum_length]
